import Mathlib

/-!
Verification of the five-tier agent composition core
(core/nano_agent.py, core/mikro_agent.py, core/sub_agent.py,
core/domain_agent.py, core/enterprise_agent.py, core/agent_registry.py).

The Python code is shallowly embedded: dicts become association lists over a
`Val` type of Python-like values, exceptions become `Except PyErr`, and each
agent tier becomes a structure with a pure `execute` function threading its
mutable state explicitly.  Logging calls are dropped; callback dispatch is
modelled as an event trace (the event names fired in order) because callback
faults are caught by `trigger_callbacks` and never influence the data flow.
Wall-clock time is abstracted: where the source measures elapsed seconds the
model takes the elapsed duration as an explicit rational parameter.
-/

/-- Python-like runtime values (the subset the core manipulates). -/
inductive Val where
  | vstr : String → Val
  | vint : Int → Val
  | vbool : Bool → Val
  | vnone : Val
  | vdict : List (String × Val) → Val
  | vlist : List Val → Val
deriving Repr

/-- Python dicts with string keys, as insertion-ordered association lists. -/
abbrev Dict := List (String × Val)

/-- Structural equality of values, standing in for Python `==` on the
fragment the core compares (the `bool == int` coercion of Python is not
needed by any claim and is not modelled). -/
def valBeq : Val → Val → Bool
  | .vstr a, .vstr b => a = b
  | .vint a, .vint b => a = b
  | .vbool a, .vbool b => a = b
  | .vnone, .vnone => true
  | .vdict a, .vdict b => pairsBeq a b
  | .vlist a, .vlist b => listBeq a b
  | _, _ => false
where
  pairsBeq : List (String × Val) → List (String × Val) → Bool
    | [], [] => true
    | (k1, v1) :: r1, (k2, v2) :: r2 => k1 = k2 && valBeq v1 v2 && pairsBeq r1 r2
    | _, _ => false
  listBeq : List Val → List Val → Bool
    | [], [] => true
    | a :: r1, b :: r2 => valBeq a b && listBeq r1 r2
    | _, _ => false

/-- Key membership: `k in d` for a Python dict. -/
def dmem (d : Dict) (k : String) : Bool :=
  d.any (fun p => p.1 = k)

/-- Lookup: `d[k]` as an `Option` (first binding wins; insertion keeps keys
unique, mirroring Python dicts). -/
def dget (d : Dict) (k : String) : Option Val :=
  (d.find? (fun p => p.1 = k)).map (·.2)

/-- Lookup with default: `d.get(k, dflt)`. -/
def dgetD (d : Dict) (k : String) (dflt : Val) : Val :=
  (dget d k).getD dflt

/-- Assignment `d[k] = v`: replace in place if the key exists, else append
(Python dicts keep the original position of an existing key). -/
def dinsert (d : Dict) (k : String) (v : Val) : Dict :=
  if dmem d k then d.map (fun p => if p.1 = k then (k, v) else p)
  else d ++ [(k, v)]

/-- `d1.update(d2)` for Python dicts. -/
def dictUpdate (d1 d2 : Dict) : Dict :=
  d2.foldl (fun acc p => dinsert acc p.1 p.2) d1

/-- Python truthiness of a value. -/
def pyTruthy : Val → Bool
  | .vstr s => s ≠ ""
  | .vint i => i ≠ 0
  | .vbool b => b
  | .vnone => false
  | .vdict d => !d.isEmpty
  | .vlist l => !l.isEmpty

/-- Substring test, for Python `pat in s` on strings. -/
def strContains (s pat : String) : Bool :=
  if pat = "" then true else (s.splitOn pat).length ≥ 2

/-- A raised Python exception: type name and message. -/
structure PyErr where
  ty : String
  msg : String
deriving Repr, DecidableEq

/-- Python `field in x` for an arbitrary value: key membership on dicts,
substring on strings, element membership on lists, `TypeError` otherwise
(ints, bools, None are not iterable). -/
def pyIn (field : String) : Val → Except PyErr Bool
  | .vdict d => .ok (dmem d field)
  | .vstr s => .ok (strContains s field)
  | .vlist l => .ok (l.any (fun v => valBeq v (.vstr field)))
  | _ => .error ⟨"TypeError", "argument of type is not iterable"⟩

/-- Approximate `str(v)` (quotes around strings are dropped; only keyword
containment tests ever look at this rendering). -/
def pyStrOf : Val → String
  | .vstr s => s
  | .vint i => toString i
  | .vbool b => if b then "True" else "False"
  | .vnone => "None"
  | .vdict d => "dict(" ++ strOfPairs d ++ ")"
  | .vlist l => "list(" ++ strOfList l ++ ")"
where
  strOfPairs : List (String × Val) → String
    | [] => ""
    | (k, v) :: rest => k ++ ": " ++ pyStrOf v ++ ", " ++ strOfPairs rest
  strOfList : List Val → String
    | [] => ""
    | v :: rest => pyStrOf v ++ ", " ++ strOfList rest

/-- Approximate `str(input_data)` for a whole dict. -/
def pyStrOfDict (d : Dict) : String :=
  pyStrOf (.vdict d)

/-! ## Tier 1: NanoAgent (core/nano_agent.py)

Wraps one operation.  The operation is abstracted as a function from the
keyword-expanded input dict to either a returned value or a raised fault. -/

structure NanoAgent where
  name : String
  agent_id : String
  action : Dict → Except PyErr Val
  /-- `input_schema.get('required', [])`; an empty or absent schema imposes
  no required fields, exactly like an empty list here. -/
  required : List String
  execution_count : Nat

/-- The required-fields loop of `NanoAgent.validate_input`: `field not in
input_data` can itself raise `TypeError` on a non-iterable input. -/
def checkRequired (fields : List String) (input : Val) : Except PyErr Bool :=
  match fields with
  | [] => .ok true
  | f :: rest =>
    match pyIn f input with
    | .error e => .error e
    | .ok true => checkRequired rest input
    | .ok false => .ok false

def NanoAgent.validate_input (a : NanoAgent) (input : Val) : Except PyErr Bool :=
  checkRequired a.required input

/-- `self.action(**input_data)`: the double-star expansion requires a
mapping; the returned flag records whether the wrapped operation actually
started running. -/
def applyAction (f : Dict → Except PyErr Val) : Val → Except PyErr Val × Bool
  | .vdict d => (f d, true)
  | _ => (.error ⟨"TypeError", "argument after ** must be a mapping"⟩, false)

/-- The success output dict built by `NanoAgent.execute`. -/
def nanoSuccessOut (a : NanoAgent) (r : Val) : Dict :=
  [("success", .vbool true),
   ("agent_id", .vstr a.agent_id),
   ("agent_name", .vstr a.name),
   ("result", r),
   ("execution_count", .vint (a.execution_count : Int))]

/-- The error output dict built by `NanoAgent.execute` when the wrapped
operation faults. -/
def nanoErrorOut (a : NanoAgent) (e : PyErr) : Dict :=
  [("success", .vbool false),
   ("agent_id", .vstr a.agent_id),
   ("agent_name", .vstr a.name),
   ("error", .vstr e.msg),
   ("error_type", .vstr e.ty)]

/-- Result of one `NanoAgent.execute` call: the raised-or-returned outcome
with the updated agent, the callback events fired in order, and whether the
wrapped operation was invoked. -/
structure NanoExec where
  result : Except PyErr (NanoAgent × Dict)
  events : List String
  actionInvoked : Bool

/-- `NanoAgent.execute`: a failed validation raises `ValueError` before any
callback fires; a normal return of the operation increments the invocation
counter and yields the success dict; a fault inside the operation is caught
and converted to the error dict without touching the counter. -/
def NanoAgent.execute (a : NanoAgent) (input : Val) : NanoExec :=
  match a.validate_input input with
  | .error e => ⟨.error e, [], false⟩
  | .ok false =>
    ⟨.error ⟨"ValueError", "Input-Validierung fehlgeschlagen: " ++ a.name⟩, [], false⟩
  | .ok true =>
    match applyAction a.action input with
    | (.ok r, _) =>
      let a2 := { a with execution_count := a.execution_count + 1 }
      ⟨.ok (a2, nanoSuccessOut a2 r), ["before_execute", "after_execute"], true⟩
    | (.error e, invoked) =>
      ⟨.ok (a, nanoErrorOut a e), ["before_execute", "on_error"], invoked⟩

/-! ## Tier 2: MikroAgent (core/mikro_agent.py)

An ordered pipeline of nano agents run sequentially or in parallel. -/

structure MikroAgent where
  name : String
  agent_id : String
  nano_agents : List NanoAgent
  pipeline_mode : String

/-- Result of `MikroAgent._execute_sequential`: either the accumulated list
of child outputs or the exception it raised, together with the children in
their post-run states and the number of children whose `execute` was
invoked. -/
structure SeqOut where
  result : Except PyErr (List Dict)
  agents : List NanoAgent
  invoked : Nat

/-- `MikroAgent._execute_sequential`: run the children in list order, feed
each child the previous output dict entry `result` (default empty dict),
and raise on the first child whose output is not a success.  The local
results list gathered so far is discarded by the raise, exactly as in the
source, where the caller observes its own, still-empty, `results` binding. -/
def execSeq : List NanoAgent → Val → SeqOut
  | [], _ => ⟨.ok [], [], 0⟩
  | a :: rest, cur =>
    let e := a.execute cur
    match e.result with
    | .error err => ⟨.error err, a :: rest, 1⟩
    | .ok (a2, out) =>
      if pyTruthy (dgetD out "success" (.vbool false)) then
        let next := execSeq rest (dgetD out "result" (.vdict []))
        ⟨next.result.map (out :: ·), a2 :: next.agents, next.invoked + 1⟩
      else
        ⟨.error ⟨"Exception", "Nano-Agent fehlgeschlagen: " ++ a.name⟩, a2 :: rest, 1⟩

/-- `MikroAgent._execute_parallel`: every child runs on (a copy of) the same
input; `asyncio.gather(..., return_exceptions=True)` waits for all children
and converts a raised exception into an inline error entry, so the result
list is index-aligned with the child list. -/
def execPar : List NanoAgent → Val → List Dict × List NanoAgent
  | [], _ => ([], [])
  | a :: rest, inp =>
    let e := a.execute inp
    let this : Dict × NanoAgent :=
      match e.result with
      | .ok (a2, out) => (out, a2)
      | .error err =>
        ([("success", .vbool false), ("agent_name", .vstr a.name),
          ("error", .vstr err.msg)], a)
    let tail := execPar rest inp
    (this.1 :: tail.1, this.2 :: tail.2)

/-- `MikroAgent.validate_input` delegates to the first child only, and fails
when there are no children. -/
def MikroAgent.validate_input (m : MikroAgent) (input : Val) : Except PyErr Bool :=
  match m.nano_agents with
  | [] => .ok false
  | a :: _ => a.validate_input input

/-- The pipeline success output dict; `final_output` looks up key `result`
in the last child output and raises `KeyError` when that key is missing. -/
def mikroSuccessOut (m : MikroAgent) (results : List Dict) : Except PyErr Dict :=
  match results.getLast? with
  | none =>
    .ok [("success", .vbool true), ("agent_id", .vstr m.agent_id),
         ("agent_name", .vstr m.name), ("pipeline_mode", .vstr m.pipeline_mode),
         ("nano_results", .vlist (results.map .vdict)), ("final_output", .vnone)]
  | some last =>
    match dget last "result" with
    | some v =>
      .ok [("success", .vbool true), ("agent_id", .vstr m.agent_id),
           ("agent_name", .vstr m.name), ("pipeline_mode", .vstr m.pipeline_mode),
           ("nano_results", .vlist (results.map .vdict)), ("final_output", v)]
    | none => .error ⟨"KeyError", "result"⟩

/-- The pipeline error output dict, built by the `except` handler of
`MikroAgent.execute` from the caller-visible `results` binding. -/
def mikroErrorOut (m : MikroAgent) (emsg : String) (failedAt : Nat)
    (partials : List Dict) : Dict :=
  [("success", .vbool false), ("agent_id", .vstr m.agent_id),
   ("agent_name", .vstr m.name), ("error", .vstr emsg),
   ("failed_at_step", .vint (failedAt : Int)),
   ("partial_results", .vlist (partials.map .vdict))]

/-- Result of one `MikroAgent.execute` call. -/
structure MikroOut where
  result : Except PyErr Dict
  agents : List NanoAgent
  invoked : Nat

/-- `MikroAgent.execute`: raise `ValueError` on failed validation, then run
the mode-selected pipeline inside a try block whose handler produces the
error output dict.  When `_execute_sequential` raises, the caller-visible
`results` binding is still the initial empty list, so the error output
reports `failed_at_step = 0` and no partial results; when building the
success output raises `KeyError` (missing `result` on the last child
output), `results` has already been assigned and is reported in full. -/
def MikroAgent.execute (m : MikroAgent) (input : Val) : MikroOut :=
  match m.validate_input input with
  | .error e => ⟨.error e, m.nano_agents, 0⟩
  | .ok false =>
    ⟨.error ⟨"ValueError", "Input-Validierung fehlgeschlagen: " ++ m.name⟩,
     m.nano_agents, 0⟩
  | .ok true =>
    if m.pipeline_mode = "sequential" then
      let s := execSeq m.nano_agents input
      match s.result with
      | .error err => ⟨.ok (mikroErrorOut m err.msg 0 []), s.agents, s.invoked⟩
      | .ok results =>
        match mikroSuccessOut m results with
        | .ok out => ⟨.ok out, s.agents, s.invoked⟩
        | .error kerr =>
          ⟨.ok (mikroErrorOut m kerr.msg results.length results), s.agents, s.invoked⟩
    else if m.pipeline_mode = "parallel" then
      let p := execPar m.nano_agents input
      match mikroSuccessOut m p.1 with
      | .ok out => ⟨.ok out, p.2, p.1.length⟩
      | .error kerr =>
        ⟨.ok (mikroErrorOut m kerr.msg p.1.length p.1), p.2, p.1.length⟩
    else
      ⟨.ok (mikroErrorOut m ("Unbekannter Pipeline-Modus: " ++ m.pipeline_mode) 0 []),
       m.nano_agents, 0⟩

/-! ## Retry wrapper (core/sub_agent.py, `SubAgent._execute_agent`)

The while-loop is modelled generically over the looping state so the same
translation serves both the in-place child execution and the general
theorems about the retry schedule. -/

structure RetryConfig where
  max_retries : Nat
  retry_delay : Rat
  exponential_backoff : Bool

/-- Outcome of the retry loop: final raised-or-returned result, final loop
state, number of attempts made, and the waits slept between attempts. -/
structure RetryOut (S : Type) where
  result : Except PyErr Dict
  state : S
  attempts : Nat
  waits : List Rat

/-- Body of the `while retries <= max_retries` loop of
`SubAgent._execute_agent`.  `fuel` is the number of loop iterations still
permitted by the guard (`max_retries + 1 - retries`); `retries` is the
loop counter.  On a fault the counter increments, and if another iteration
is permitted the loop sleeps `retry_delay * 2 ^ (retries - 1)` (exponential
backoff) or `retry_delay` (fixed) before retrying; once the guard fails the
last fault is re-raised. -/
def retryAux (cfg : RetryConfig) (step : S → Except PyErr Dict × S) :
    Nat → Nat → S → PyErr → RetryOut S
  | 0, _, st, lastErr => ⟨.error lastErr, st, 0, []⟩
  | fuel + 1, retries, st, _ =>
    let r := step st
    match r.1 with
    | .ok d => ⟨.ok d, r.2, 1, []⟩
    | .error e =>
      let retries2 := retries + 1
      if retries2 ≤ cfg.max_retries then
        let delay := if cfg.exponential_backoff
          then cfg.retry_delay * 2 ^ (retries2 - 1) else cfg.retry_delay
        let next := retryAux cfg step fuel retries2 r.2 e
        ⟨next.result, next.state, next.attempts + 1, delay :: next.waits⟩
      else
        ⟨.error e, r.2, 1, []⟩

/-- Entry into the retry loop with `retries = 0`; the guard admits at most
`max_retries + 1` iterations.  The dummy error mirrors `last_error = None`,
which is never raised because the loop always runs at least once. -/
def runRetry (cfg : RetryConfig) (step : S → Except PyErr Dict × S) (st : S) :
    RetryOut S :=
  retryAux cfg step (cfg.max_retries + 1) 0 st ⟨"NoneType", "None"⟩

/-! ## Tier 3: SubAgent (core/sub_agent.py) -/

/-- A child of a Process node: a pipeline (mikro) or an atomic (nano). -/
inductive ChildAgent where
  | nanoC : NanoAgent → ChildAgent
  | mikroC : MikroAgent → ChildAgent

def ChildAgent.cname : ChildAgent → String
  | .nanoC a => a.name
  | .mikroC m => m.name

/-- One `agent.execute(agent_input)` call on a child, threading its state;
a raise leaves the child in its post-call state (the raising paths of both
tiers mutate nothing beyond what their own model already records). -/
def ChildAgent.run : ChildAgent → Val → Except PyErr Dict × ChildAgent
  | .nanoC a, v =>
    let e := a.execute v
    match e.result with
    | .ok (a2, out) => (.ok out, .nanoC a2)
    | .error err => (.error err, .nanoC a)
  | .mikroC m, v =>
    let o := m.execute v
    (o.result, .mikroC { m with nano_agents := o.agents })

/-- The live process context dict of `SubAgent.execute` (`decisions` and
`errors` are only appended to for reporting; the model keeps the decision
count). -/
structure ProcessCtx where
  input : Dict
  current_step : Nat
  results : List Dict
  decisions : Nat

/-- A conditional flow: predicate over the live context, mandatory true
path, optional false path. -/
structure CondFlow where
  cond : ProcessCtx → Bool
  truePath : ChildAgent
  falsePath : Option ChildAgent

/-- `ConditionalFlow.evaluate`: the selected path, if any. -/
def flowSelect (f : CondFlow) (ctx : ProcessCtx) : Option ChildAgent :=
  if f.cond ctx then some f.truePath else f.falsePath

structure SubAgent where
  name : String
  agent_id : String
  mikro_agents : List (String × MikroAgent)
  nano_agents : List (String × NanoAgent)
  workflows : List (String × List String)
  conditional_flows : List CondFlow
  /-- `decision_logic.get('stop_on_error', True)` -/
  stop_on_error : Bool
  /-- `decision_logic.get('required_fields', [])` -/
  required_fields : List String
  retry_config : RetryConfig
  /-- Fault-type name to recovery operation; `none` stands for both a falsy
  handler result and a handler that itself faulted (caught and logged). -/
  error_handlers : List (String × (PyErr → ProcessCtx → Option Val))

def assocGet (l : List (String × A)) (k : String) : Option A :=
  (l.find? (fun p => p.1 = k)).map (·.2)

def assocReplace (l : List (String × A)) (k : String) (v : A) : List (String × A) :=
  l.map (fun p => if p.1 = k then (k, v) else p)

/-- `SubAgent._prepare_agent_input`: the call input plus, when a previous
result carries a `result` entry, that entry merged on top; merging a
non-dict raises `TypeError` inside the retry try-block. -/
def prepareInput (ctx : ProcessCtx) : Except PyErr Dict :=
  match ctx.results.getLast? with
  | none => .ok ctx.input
  | some last =>
    match dget last "result" with
    | none => .ok ctx.input
    | some (.vdict d) => .ok (dictUpdate ctx.input d)
    | some _ => .error ⟨"TypeError", "update requires a mapping"⟩

/-- `SubAgent._execute_agent`: the retry loop around one child execution;
on a returned result (success flag or not) the context records it and the
step counter advances, on exhaustion the last fault is re-raised and the
context is untouched. -/
structure AgentStepOut where
  result : Except PyErr Dict
  agent : ChildAgent
  ctx : ProcessCtx

def subExecAgent (cfg : RetryConfig) (ch : ChildAgent) (ctx : ProcessCtx) :
    AgentStepOut :=
  let r := runRetry cfg (fun c =>
    match prepareInput ctx with
    | .error e => (.error e, c)
    | .ok inp => ChildAgent.run c (.vdict inp)) ch
  match r.result with
  | .ok d =>
    ⟨.ok d, r.state,
     { ctx with results := ctx.results ++ [d], current_step := ctx.current_step + 1 }⟩
  | .error e => ⟨.error e, r.state, ctx⟩

/-- Find a child by name, mikro agents first (`SubAgent._find_agent`). -/
def findAgent (sa : SubAgent) (n : String) : Option ChildAgent :=
  match assocGet sa.mikro_agents n with
  | some m => some (.mikroC m)
  | none =>
    match assocGet sa.nano_agents n with
    | some a => some (.nanoC a)
    | none => none

/-- Write a child state back into the registered dict it came from. -/
def updateChild (sa : SubAgent) (n : String) (c : ChildAgent) : SubAgent :=
  match c with
  | .mikroC m => { sa with mikro_agents := assocReplace sa.mikro_agents n m }
  | .nanoC a => { sa with nano_agents := assocReplace sa.nano_agents n a }

/-- Outcome of `SubAgent._execute_workflow`: the locally accumulated step
results (discarded by a raise, like every Python local), the updated agent
and context, and the dispatched child names. -/
structure WorkflowOut where
  result : Except PyErr (List Dict)
  sa : SubAgent
  ctx : ProcessCtx
  dispatched : List String

def runWorkflow (sa : SubAgent) (ctx : ProcessCtx) : List String → WorkflowOut
  | [] => ⟨.ok [], sa, ctx, []⟩
  | stepName :: rest =>
    match findAgent sa stepName with
    | none =>
      ⟨.error ⟨"ValueError", "Agent nicht gefunden: " ++ stepName⟩, sa, ctx, []⟩
    | some ch =>
      let o := subExecAgent sa.retry_config ch ctx
      let sa2 := updateChild sa stepName o.agent
      match o.result with
      | .error e => ⟨.error e, sa2, o.ctx, [stepName]⟩
      | .ok d =>
        if !pyTruthy (dgetD d "success" .vnone) && sa.stop_on_error then
          ⟨.error ⟨"Exception", "Workflow-Schritt fehlgeschlagen: " ++ stepName⟩,
           sa2, o.ctx, [stepName]⟩
        else
          let next := runWorkflow sa2 o.ctx rest
          ⟨next.result.map (d :: ·), next.sa, next.ctx, stepName :: next.dispatched⟩

/-- Outcome of the conditional-flow loop: `some result` when a selected
child succeeded (that result becomes the Process result) or raised, `none`
when no flow produced a result and execution falls through. -/
structure FlowsOut where
  result : Option (Except PyErr Dict)
  flows : List CondFlow
  ctx : ProcessCtx
  dispatched : List String

def runFlows (cfg : RetryConfig) : List CondFlow → ProcessCtx → FlowsOut
  | [], ctx => ⟨none, [], ctx, []⟩
  | f :: rest, ctx =>
    match flowSelect f ctx with
    | none =>
      let next := runFlows cfg rest ctx
      ⟨next.result, f :: next.flows, next.ctx, next.dispatched⟩
    | some ch =>
      let ctx2 := { ctx with decisions := ctx.decisions + 1 }
      let o := subExecAgent cfg ch ctx2
      let f2 : CondFlow :=
        if f.cond ctx then { f with truePath := o.agent }
        else { f with falsePath := some o.agent }
      match o.result with
      | .error e => ⟨some (.error e), f2 :: rest, o.ctx, [ch.cname]⟩
      | .ok d =>
        if pyTruthy (dgetD d "success" .vnone) then
          ⟨some (.ok d), f2 :: rest, o.ctx, [ch.cname]⟩
        else
          let next := runFlows cfg rest o.ctx
          ⟨next.result, f2 :: next.flows, next.ctx, ch.cname :: next.dispatched⟩

/-- Outcome of the fallback loop over the registered mikro agents
(`SubAgent._execute_process_logic`, step 3): unit on normal completion or
the raised exception, the children in their post-run states, the final
context and the dispatched child names. -/
structure FallbackOut where
  result : Except PyErr Unit
  children : List (String × MikroAgent)
  ctx : ProcessCtx
  dispatched : List String

/-- The fallback iterates the registered mikro agents only, in insertion
order; a non-success result raises when `stop_on_error` holds, otherwise
iteration continues; a raise from the retry wrapper always aborts. -/
def runFallback (cfg : RetryConfig) (stop : Bool) :
    List (String × MikroAgent) → ProcessCtx → FallbackOut
  | [], ctx => ⟨.ok (), [], ctx, []⟩
  | (n, m) :: rest, ctx =>
    let o := subExecAgent cfg (.mikroC m) ctx
    let m2 := match o.agent with
      | .mikroC mm => mm
      | .nanoC _ => m
    match o.result with
    | .error e => ⟨.error e, (n, m2) :: rest, o.ctx, [n]⟩
    | .ok d =>
      if !pyTruthy (dgetD d "success" .vnone) && stop then
        ⟨.error ⟨"Exception", "Mikro-Agent fehlgeschlagen: " ++ n⟩,
         (n, m2) :: rest, o.ctx, [n]⟩
      else
        let next := runFallback cfg stop rest o.ctx
        ⟨next.result, (n, m2) :: next.children, next.ctx, n :: next.dispatched⟩

/-- The workflow key of the call: `input.get('workflow', 'default')`, usable
as a dict key only when it is a string. -/
def workflowKeyOf (input : Dict) : Option String :=
  match dget input "workflow" with
  | some (.vstr s) => some s
  | some _ => none
  | none => some "default"

/-- Outcome of `SubAgent._execute_process_logic`: the process result value
(or the raised exception), the updated agent, final context, and dispatched
child names in order. -/
structure LogicOut where
  result : Except PyErr Val
  sa : SubAgent
  ctx : ProcessCtx
  dispatched : List String

/-- Steps 2 and 3 of `_execute_process_logic`: conditional flows, then the
fallback iteration over the registered mikro agents whose return value is
the accumulated `context['results']` list. -/
def execFlowsFallback (sa : SubAgent) (ctx : ProcessCtx) : LogicOut :=
  let fo := runFlows sa.retry_config sa.conditional_flows ctx
  let sa1 := { sa with conditional_flows := fo.flows }
  match fo.result with
  | some (.error e) => ⟨.error e, sa1, fo.ctx, fo.dispatched⟩
  | some (.ok d) => ⟨.ok (.vdict d), sa1, fo.ctx, fo.dispatched⟩
  | none =>
    let fb := runFallback sa.retry_config sa.stop_on_error sa1.mikro_agents fo.ctx
    let sa2 := { sa1 with mikro_agents := fb.children }
    match fb.result with
    | .error e => ⟨.error e, sa2, fb.ctx, fo.dispatched ++ fb.dispatched⟩
    | .ok _ =>
      ⟨.ok (.vlist (fb.ctx.results.map .vdict)), sa2, fb.ctx,
       fo.dispatched ++ fb.dispatched⟩

/-- `SubAgent._execute_process_logic`: a registered workflow named by the
input (default name `default`) takes precedence; otherwise conditional
flows, then the fallback iteration. -/
def execProcessLogic (sa : SubAgent) (ctx : ProcessCtx) : LogicOut :=
  match workflowKeyOf ctx.input with
  | some w =>
    match assocGet sa.workflows w with
    | some steps =>
      let wo := runWorkflow sa ctx steps
      ⟨wo.result.map (fun rs => .vlist (rs.map .vdict)), wo.sa, wo.ctx, wo.dispatched⟩
    | none => execFlowsFallback sa ctx
  | none => execFlowsFallback sa ctx

/-- `SubAgent._handle_error`: look up a recovery operation by fault-type
name and run it; `none` covers a missing handler, a falsy recovery result
and a handler fault (which is caught and logged). -/
def handleError (sa : SubAgent) (e : PyErr) (ctx : ProcessCtx) : Option Val :=
  match assocGet sa.error_handlers e.ty with
  | none => none
  | some h => h e ctx

def subSuccessOut (sa : SubAgent) (v : Val) (ctx : ProcessCtx) : Dict :=
  [("success", .vbool true), ("agent_id", .vstr sa.agent_id),
   ("agent_name", .vstr sa.name), ("final_result", v),
   ("decisions_made", .vint (ctx.decisions : Int)),
   ("steps_executed", .vint (ctx.current_step : Int))]

def subRecoveredOut (sa : SubAgent) (rv : Val) (e : PyErr) : Dict :=
  [("success", .vbool true), ("agent_id", .vstr sa.agent_id),
   ("agent_name", .vstr sa.name), ("recovered", .vbool true),
   ("recovery_result", rv), ("original_error", .vstr e.msg)]

def subErrorOut (sa : SubAgent) (e : PyErr) : Dict :=
  [("success", .vbool false), ("agent_id", .vstr sa.agent_id),
   ("agent_name", .vstr sa.name), ("error", .vstr e.msg),
   ("error_type", .vstr e.ty)]

def SubAgent.validate_input (sa : SubAgent) (input : Dict) : Bool :=
  sa.required_fields.all (fun f => dmem input f)

/-- Result of one `SubAgent.execute` call: the raised-or-returned output
dict, the updated agent, the dispatched child names, and the exception the
internal try-block caught, if any. -/
structure SubOut where
  result : Except PyErr Dict
  agent : SubAgent
  dispatched : List String
  raised : Option PyErr

/-- `SubAgent.execute`: raise `ValueError` on failed validation; otherwise
run the process logic and wrap its result, routing a caught exception
through the error-handler table first. -/
def SubAgent.execute (sa : SubAgent) (input : Dict) : SubOut :=
  if !sa.validate_input input then
    ⟨.error ⟨"ValueError", "Input-Validierung fehlgeschlagen: " ++ sa.name⟩,
     sa, [], none⟩
  else
    let ctx0 : ProcessCtx := ⟨input, 0, [], 0⟩
    let lo := execProcessLogic sa ctx0
    match lo.result with
    | .ok v => ⟨.ok (subSuccessOut lo.sa v lo.ctx), lo.sa, lo.dispatched, none⟩
    | .error e =>
      match handleError lo.sa e lo.ctx with
      | some rv => ⟨.ok (subRecoveredOut lo.sa rv e), lo.sa, lo.dispatched, some e⟩
      | none => ⟨.ok (subErrorOut lo.sa e), lo.sa, lo.dispatched, some e⟩

/-! ## Tier 4: DomainAgent (core/domain_agent.py) -/

inductive DomainType where
  | mail_ops | calendar_ops | compliance_ops | finance_ops
  | hr_ops | customer_ops | document_ops | custom
deriving DecidableEq, Repr

def domainTypeStr : DomainType → String
  | .mail_ops => "mail_operations"
  | .calendar_ops => "calendar_operations"
  | .compliance_ops => "compliance_operations"
  | .finance_ops => "finance_operations"
  | .hr_ops => "human_resources"
  | .customer_ops => "customer_service"
  | .document_ops => "document_management"
  | .custom => "custom"

/-- One policy rule: required fields, per-field forbidden values, per-field
numeric upper bounds (`DomainAgent._evaluate_policy_rule`). -/
structure PolicyRule where
  required_fields : List String
  forbidden_values : List (String × List Val)
  max_value : List (String × Int)

structure DomainMetrics where
  total_requests : Nat
  successful_requests : Nat
  failed_requests : Nat
  average_response_time : Rat
deriving Repr, DecidableEq

structure DomainAgent where
  name : String
  agent_id : String
  domain_type : DomainType
  sub_agents : List (String × SubAgent)
  /-- `policies`: policy-group name (a request-type label or `global`) to
  named rules, both in insertion order. -/
  policies : List (String × List (String × PolicyRule))
  integrations : List String
  routing_rules : List (String × List String)
  domain_metrics : DomainMetrics

/-- `DomainAgent.validate_input`: mail and calendar domains demand one of a
fixed field set, all other domains accept any dict. -/
def DomainAgent.validate_input (d : DomainAgent) (input : Dict) : Bool :=
  match d.domain_type with
  | .mail_ops =>
    ["email", "message", "mail_id", "text"].any (fun f => dmem input f)
  | .calendar_ops =>
    ["date", "time", "appointment", "calendar_id"].any (fun f => dmem input f)
  | _ => true

/-- `DomainAgent._classify_request`: keyword classification over the
lowercased `text` field. -/
def classifyRequest (d : DomainAgent) (input : Dict) : String :=
  let t := (pyStrOf (dgetD input "text" (.vstr ""))).toLower
  match d.domain_type with
  | .mail_ops =>
    if strContains t "reply" || strContains t "antwort" then "mail_reply"
    else if strContains t "forward" || strContains t "weiterleiten" then "mail_forward"
    else if strContains t "archive" || strContains t "archivieren" then "mail_archive"
    else "mail_process"
  | .calendar_ops =>
    if strContains t "book" || strContains t "buchen" then "calendar_book"
    else if strContains t "cancel" || strContains t "stornieren" then "calendar_cancel"
    else if strContains t "reschedule" || strContains t "verschieben" then "calendar_reschedule"
    else "calendar_query"
  | _ => "generic_request"

/-- The forbidden-values loop of `_evaluate_policy_rule`: a present field
whose value sits in its forbidden list violates the rule. -/
def checkForbidden : List (String × List Val) → Dict → Bool
  | [], _ => false
  | (f, vs) :: rest, d =>
    (match dget d f with
     | some v => vs.any (fun w => valBeq v w)
     | none => false) || checkForbidden rest d

/-- The numeric-bound loop of `_evaluate_policy_rule`: a present field above
its bound violates the rule; comparing a non-numeric value raises
`TypeError` (Python bools compare as 0 or 1). -/
def checkMax : List (String × Int) → Dict → Except PyErr Bool
  | [], _ => .ok false
  | (f, m) :: rest, d =>
    match dget d f with
    | none => checkMax rest d
    | some (.vint i) => if i > m then .ok true else checkMax rest d
    | some (.vbool b) =>
      if (if b then (1 : Int) else 0) > m then .ok true else checkMax rest d
    | some _ => .error ⟨"TypeError", "Vergleich nicht unterstuetzt"⟩

/-- `DomainAgent._evaluate_policy_rule`: `.ok true` means the rule passes. -/
def evalRule (r : PolicyRule) (d : Dict) : Except PyErr Bool :=
  if r.required_fields.any (fun f => !dmem d f) then .ok false
  else if checkForbidden r.forbidden_values d then .ok false
  else
    match checkMax r.max_value d with
    | .error e => .error e
    | .ok true => .ok false
    | .ok false => .ok true

/-- Evaluate a named rule group in order; `some name` is the first violated
rule. -/
def checkRuleGroup : List (String × PolicyRule) → Dict → Except PyErr (Option String)
  | [], _ => .ok none
  | (rn, r) :: rest, d =>
    match evalRule r d with
    | .error e => .error e
    | .ok false => .ok (some rn)
    | .ok true => checkRuleGroup rest d

/-- `DomainAgent._check_policies`: the reserved `global` group first, then
the group of the matched request type; the first violated rule aborts with
`allowed = False` and its reason. -/
def checkPolicies (policies : List (String × List (String × PolicyRule)))
    (rt : String) (d : Dict) : Except PyErr (Bool × Option String) :=
  let globalStep : Except PyErr (Option String) :=
    match assocGet policies "global" with
    | none => .ok none
    | some grp => checkRuleGroup grp d
  match globalStep with
  | .error e => .error e
  | .ok (some rn) => .ok (false, some ("Globale Policy verletzt: " ++ rn))
  | .ok none =>
    match assocGet policies rt with
    | none => .ok (true, none)
    | some grp =>
      match checkRuleGroup grp d with
      | .error e => .error e
      | .ok (some rn) => .ok (false, some ("Policy verletzt: " ++ rn))
      | .ok none => .ok (true, none)

/-- `DomainAgent._route_to_sub_agents`: the routing-table entry of the
request type filtered to registered names; when it selects nobody, the
first registered child is the fallback. -/
def routeAgents (d : DomainAgent) (rt : String) : List String :=
  let fromRules :=
    match assocGet d.routing_rules rt with
    | some names => names.filter (fun n => (assocGet d.sub_agents n).isSome)
    | none => []
  if fromRules.isEmpty then
    match d.sub_agents with
    | [] => []
    | (n, _) :: _ => [n]
  else fromRules

def policyRuleVal (r : PolicyRule) : Val :=
  .vdict [("required_fields", .vlist (r.required_fields.map .vstr)),
          ("forbidden_values", .vdict (r.forbidden_values.map (fun p => (p.1, .vlist p.2)))),
          ("max_value", .vdict (r.max_value.map (fun p => (p.1, .vint p.2))))]

/-- The read-only `domain_context` block merged into every child input. -/
def domainCtxBlock (d : DomainAgent) : Val :=
  .vdict [("domain", .vstr (domainTypeStr d.domain_type)),
          ("policies", .vdict (d.policies.map (fun g =>
            (g.1, .vdict (g.2.map (fun r => (r.1, policyRuleVal r.2))))))),
          ("integrations", .vlist (d.integrations.map .vstr))]

/-- `DomainAgent._execute_sub_agents`: run the selected children by name in
order, each on the input extended with the domain context; a raise from a
child becomes an inline error entry and the loop continues. -/
def domExecSubAgents (d : DomainAgent) (input : Dict) :
    List String → List (String × SubAgent) → List Dict × List (String × SubAgent)
  | [], subs => ([], subs)
  | n :: rest, subs =>
    match assocGet subs n with
    | none => domExecSubAgents d input rest subs
    | some sub =>
      let agentInput := dinsert input "domain_context" (domainCtxBlock d)
      let so := sub.execute agentInput
      let subs2 := assocReplace subs n so.agent
      let entry : Dict :=
        match so.result with
        | .ok out => out
        | .error e =>
          [("success", .vbool false), ("agent_name", .vstr n), ("error", .vstr e.msg)]
      let tail := domExecSubAgents d input rest subs2
      (entry :: tail.1, tail.2)

/-- `v.get(k)` on a value expected to be a dict (`None`-defaulting). -/
def valGetKey (v : Val) (k : String) : Val :=
  match v with
  | .vdict d => dgetD d k .vnone
  | _ => .vnone

/-- `DomainAgent._aggregate_results` with the two domain-specific reducers
and the generic one. -/
def domAggregate (dt : DomainType) (results : List Dict) : Dict :=
  let succ := results.filter (fun r => pyTruthy (dgetD r "success" (.vbool false)))
  if succ.isEmpty then
    [("status", .vstr "failed"),
     ("message", .vstr "Keine erfolgreichen Sub-Agent Ausfuehrungen"),
     ("errors", .vlist ((results.filter
        (fun r => !pyTruthy (dgetD r "success" (.vbool false)))).map
        (fun r => dgetD r "error" .vnone)))]
  else
    match dt with
    | .mail_ops =>
      [("status", .vstr "success"),
       ("mails_processed", .vint (succ.length : Int)),
       ("actions_taken", .vlist (succ.map (fun r =>
          valGetKey (dgetD r "final_result" (.vdict [])) "action")))]
    | .calendar_ops =>
      [("status", .vstr "success"),
       ("appointments_affected", .vint (succ.length : Int)),
       ("changes", .vlist (succ.map (fun r =>
          valGetKey (dgetD r "final_result" (.vdict [])) "change_type")))]
    | _ =>
      [("status", .vstr "success"),
       ("aggregated_count", .vint (succ.length : Int)),
       ("results", .vlist (succ.map (fun r => dgetD r "final_result" .vnone)))]

def domSuccessOut (d : DomainAgent) (rt : String) (finalRes : Dict)
    (used : List String) : Dict :=
  [("success", .vbool true), ("agent_id", .vstr d.agent_id),
   ("agent_name", .vstr d.name), ("domain", .vstr (domainTypeStr d.domain_type)),
   ("request_type", .vstr rt), ("result", .vdict finalRes),
   ("sub_agents_used", .vlist (used.map .vstr))]

def domErrorOut (d : DomainAgent) (e : PyErr) : Dict :=
  [("success", .vbool false), ("agent_id", .vstr d.agent_id),
   ("agent_name", .vstr d.name), ("domain", .vstr (domainTypeStr d.domain_type)),
   ("error", .vstr e.msg), ("error_type", .vstr e.ty)]

/-- Result of one `DomainAgent.execute` call. -/
structure DomOut where
  result : Except PyErr Dict
  agent : DomainAgent

/-- `DomainAgent._update_response_time` applied after a success increment:
the running average over the successful calls. -/
def updatedAverage (m : DomainMetrics) (elapsed : Rat) : Rat :=
  (m.average_response_time * ((m.successful_requests : Rat) - 1) + elapsed)
    / (m.successful_requests : Rat)

/-- The body of the try-block of `DomainAgent.execute`: classification has
already happened; the policy gate raises `PermissionError` on a violation
before any child runs; otherwise routing, child execution and aggregation
produce the success output and the updated children. -/
def domBody (d : DomainAgent) (input : Dict) (rt : String) :
    Except PyErr (Dict × List (String × SubAgent)) :=
  match checkPolicies d.policies rt input with
  | .error e => .error e
  | .ok (false, reason) =>
    .error ⟨"PermissionError", "Policy-Verletzung: " ++ reason.getD ""⟩
  | .ok (true, _) =>
    let names := routeAgents d rt
    let run := domExecSubAgents d input names d.sub_agents
    let finalRes := domAggregate d.domain_type run.1
    .ok (domSuccessOut d rt finalRes names, run.2)

/-- `DomainAgent.execute`: `total_requests` increments first; a failed
validation increments `failed_requests` and raises `ValueError`; then
classification, the policy gate (a violation raises `PermissionError`
caught into the error output before any child runs), routing, child
execution, aggregation.  The success path increments
`successful_requests` and folds `elapsed` into the running average; every
failure path increments `failed_requests` and leaves the average alone. -/
def DomainAgent.execute (d : DomainAgent) (input : Dict) (elapsed : Rat) : DomOut :=
  let m1 := { d.domain_metrics with total_requests := d.domain_metrics.total_requests + 1 }
  if !d.validate_input input then
    ⟨.error ⟨"ValueError", "Input-Validierung fehlgeschlagen: " ++ d.name⟩,
     { d with domain_metrics := { m1 with failed_requests := m1.failed_requests + 1 } }⟩
  else
    match domBody d input (classifyRequest d input) with
    | .ok (out, subs2) =>
      let m2 := { m1 with successful_requests := m1.successful_requests + 1 }
      let m3 := { m2 with average_response_time := updatedAverage m2 elapsed }
      ⟨.ok out, { d with sub_agents := subs2, domain_metrics := m3 }⟩
    | .error e =>
      ⟨.ok (domErrorOut d e),
       { d with domain_metrics := { m1 with failed_requests := m1.failed_requests + 1 } }⟩

/-! ## Tier 5: EnterpriseAgent (core/enterprise_agent.py) -/

inductive Industry where
  | healthcare | legal | ecommerce | finance
  | manufacturing | education | hospitality | customInd
deriving DecidableEq, Repr

/-- One step of a business process: target domain, action, guard. -/
structure ProcessStep where
  domain : String
  action : Val
  conditions : List (String × Val)

structure BusinessProcess where
  flow : List ProcessStep
  execution_count : Nat

/-- One audit-trail entry (the wall-clock timestamp is dropped from the
model; `output` and `error` realise the output-or-fault field). -/
structure AuditEntry where
  request_id : String
  user : Val
  input : Dict
  output : Option Dict
  error : Option String
  status : String

structure EnterpriseAgent where
  name : String
  agent_id : String
  industry : Industry
  company_name : String
  domain_agents : List (String × DomainAgent)
  /-- `global_policies.get('required_fields', [])` -/
  required_fields : List String
  compliance_requirements : List String
  business_processes : List (String × BusinessProcess)
  /-- Role name to permission list (`user_roles`). -/
  user_roles : List (String × List String)
  audit_trail : List AuditEntry
  total_requests : Nat
  error_log : List String
  compliance_violations : List (List String)

def EnterpriseAgent.validate_input (ea : EnterpriseAgent) (input : Dict) : Bool :=
  ea.required_fields.all (fun f => dmem input f)

/-- `EnterpriseAgent._authenticate_and_authorize`: the role (default
`viewer`) must be a known role whose permission list contains `*` or the
requested action (default `execute`). -/
def entAuthorized (ea : EnterpriseAgent) (input : Dict) : Bool :=
  let role := dgetD input "role" (.vstr "viewer")
  let act := dgetD input "action" (.vstr "execute")
  match role with
  | .vstr r =>
    match assocGet ea.user_roles r with
    | none => false
    | some perms =>
      perms.contains "*" ||
        (match act with
         | .vstr a => perms.contains a
         | _ => false)
  | _ => false

/-- `EnterpriseAgent._check_compliance`: collect violations from the
configured requirements and the industry-specific checks; a non-numeric
`amount` under the finance check raises `TypeError`. -/
def entCompliance (ea : EnterpriseAgent) (input : Dict) : Except PyErr (List String) :=
  let v1 : List String :=
    if ea.compliance_requirements.contains "DSGVO" &&
       dmem input "personal_data" && !pyTruthy (dgetD input "consent" .vnone) then
      ["DSGVO: Keine Einwilligung fuer personenbezogene Daten"]
    else []
  let v2 : List String :=
    if ea.compliance_requirements.contains "HIPAA" &&
       dmem input "health_data" && !pyTruthy (dgetD input "hipaa_compliant" .vnone) then
      ["HIPAA: Gesundheitsdaten nicht konform"]
    else []
  let v3 : Except PyErr (List String) :=
    match ea.industry with
    | .healthcare =>
      if pyTruthy (dgetD input "prescription_required" .vnone) &&
         !pyTruthy (dgetD input "doctor_approval" .vnone) then
        .ok ["Rezeptpflichtige Medikamente benoetigen Arzt-Freigabe"]
      else .ok []
    | .finance =>
      ((match dgetD input "amount" (.vint 0) with
       | .vint i => .ok (i > 10000)
       | .vbool _ => .ok false
       | _ => .error ⟨"TypeError", "Vergleich nicht unterstuetzt"⟩ :
         Except PyErr Bool)).map
        (fun big =>
          if big && !pyTruthy (dgetD input "aml_check" .vnone) then
            ["AML: Geldwaesche-Pruefung erforderlich"]
          else [])
    | _ => .ok []
  v3.map (fun l3 => v1 ++ v2 ++ l3)

/-- `EnterpriseAgent._identify_business_process`: an explicit registered
`process_type` wins; otherwise industry keyword heuristics over the string
rendering of the whole input. -/
def identifyProcess (ea : EnterpriseAgent) (input : Dict) : Option String :=
  let explicitly : Option String :=
    match dget input "process_type" with
    | some (.vstr s) => if (assocGet ea.business_processes s).isSome then some s else none
    | _ => none
  match explicitly with
  | some s => some s
  | none =>
    let s := (pyStrOfDict input).toLower
    match ea.industry with
    | .healthcare =>
      if strContains s "appointment" then some "appointment_booking"
      else if strContains s "prescription" then some "prescription_handling"
      else none
    | .ecommerce =>
      if strContains s "order" then some "order_processing"
      else if strContains s "return" then some "return_handling"
      else none
    | _ => none

/-- `EnterpriseAgent._evaluate_conditions`: every guard field must be
present and equal. -/
def evalConditions (conds : List (String × Val)) (data : Dict) : Bool :=
  conds.all (fun p =>
    match dget data p.1 with
    | none => false
    | some v => valBeq v p.2)

/-- `EnterpriseAgent._execute_business_process`: run the steps in order,
skipping steps whose guard fails; a missing domain raises `ValueError`; a
successful step merges its `result` entry into the running data (merging a
non-dict raises `TypeError`). -/
def runBusinessSteps (ea : EnterpriseAgent) :
    List ProcessStep → Dict → List (String × DomainAgent) →
    Except PyErr (List Dict × Dict) × List (String × DomainAgent)
  | [], data, doms => (.ok ([], data), doms)
  | step :: rest, data, doms =>
    if !step.conditions.isEmpty && !evalConditions step.conditions data then
      runBusinessSteps ea rest data doms
    else
      match assocGet doms step.domain with
      | none =>
        (.error ⟨"ValueError", "Domain-Agent nicht gefunden: " ++ step.domain⟩, doms)
      | some da =>
        let domainInput := dinsert data "action" step.action
        let o := da.execute domainInput 0
        let doms2 := assocReplace doms step.domain o.agent
        match o.result with
        | .error e => (.error e, doms2)
        | .ok res =>
          let dataNext : Except PyErr Dict :=
            if pyTruthy (dgetD res "success" .vnone) then
              match dget res "result" with
              | none => .ok data
              | some (.vdict rd) => .ok (dictUpdate data rd)
              | some _ => .error ⟨"TypeError", "update requires a mapping"⟩
            else .ok data
          match dataNext with
          | .error e => (.error e, doms2)
          | .ok data2 =>
            let tail := runBusinessSteps ea rest data2 doms2
            ((tail.1).map (fun p => (res :: p.1, p.2)), tail.2)

/-- `EnterpriseAgent._identify_relevant_domains`: keyword scan of the input
rendering against each registered domain type. -/
def relevantDomains (ea : EnterpriseAgent) (input : Dict) : List String :=
  let s := (pyStrOfDict input).toLower
  (ea.domain_agents.filter (fun p =>
    match p.2.domain_type with
    | .mail_ops =>
      strContains s "mail" || strContains s "email" || strContains s "message"
    | .calendar_ops =>
      strContains s "calendar" || strContains s "appointment" || strContains s "termin"
    | _ => false)).map (·.1)

/-- `EnterpriseAgent._execute_standard_orchestration`: invoke every
relevant domain, collecting a name-to-outcome map; a raising domain is
recorded inline and never aborts its siblings. -/
def runStandardOrch (ea : EnterpriseAgent) (input : Dict) :
    List String → List (String × DomainAgent) →
    List (String × Dict) × List (String × DomainAgent)
  | [], doms => ([], doms)
  | n :: rest, doms =>
    match assocGet doms n with
    | none => runStandardOrch ea input rest doms
    | some da =>
      let o := da.execute input 0
      let doms2 := assocReplace doms n o.agent
      let entry : Dict :=
        match o.result with
        | .ok res => res
        | .error e => [("success", .vbool false), ("error", .vstr e.msg)]
      let tail := runStandardOrch ea input rest doms2
      ((n, entry) :: tail.1, tail.2)

/-- `EnterpriseAgent._post_process_result` (summary, action list, next
steps, optional notifications), with the helper text generators inlined. -/
def postProcess (ea : EnterpriseAgent) (result : Dict) : Dict :=
  let summary : String :=
    if dmem result "process" then "Geschaeftsprozess ausgefuehrt"
    else if dmem result "orchestration" then "Standard-Orchestrierung ausgefuehrt"
    else "Operation abgeschlossen"
  let actions : List Val :=
    match dget result "results" with
    | some (.vlist rs) =>
      rs.filterMap (fun r =>
        match r with
        | .vdict rd => if dmem rd "action" then dget rd "action" else none
        | _ => none)
    | some (.vdict rm) =>
      rm.filterMap (fun p =>
        match p.2 with
        | .vdict dr =>
          if dmem dr "result" then
            some (.vstr (p.1 ++ ": " ++ pyStrOf (dgetD dr "request_type" (.vstr "processed"))))
          else none
        | _ => none)
    | _ => []
  let rendering := (pyStrOfDict result).toLower
  let nextSteps : List Val :=
    match ea.industry with
    | .healthcare =>
      (if strContains rendering "appointment" then
        [Val.vstr "Termin-Erinnerung 24h vorher senden"] else []) ++
      (if strContains rendering "prescription" then
        [Val.vstr "Rezept-Status nach 7 Tagen pruefen"] else [])
    | .ecommerce =>
      if strContains rendering "order" then
        [Val.vstr "Versand-Tracking aktivieren",
         Val.vstr "Review-Anfrage nach Lieferung senden"] else []
    | _ => []
  let base : Dict :=
    [("summary", .vstr summary), ("actions_taken", .vlist actions),
     ("next_steps", .vlist nextSteps), ("data", .vdict result)]
  let needsNotify :=
    strContains (pyStrOfDict result) "compliance_violation" ||
    (dmem result "error" && pyTruthy (dgetD result "error" .vnone)) ||
    strContains rendering "urgent"
  if needsNotify then
    let notes : List Val :=
      if dmem result "error" then
        [.vdict [("type", .vstr "error"), ("recipient", .vstr "admin")]]
      else []
    base ++ [("notifications", .vlist notes)]
  else base

def entErrorResponse (ea : EnterpriseAgent) (rid : String) (emsg : String) : Dict :=
  [("success", .vbool false), ("request_id", .vstr rid),
   ("enterprise", .vstr ea.name), ("error", .vstr emsg)]

def entSuccessOut (ea : EnterpriseAgent) (rid : String) (processName : Option String)
    (finalRes : Dict) : Dict :=
  [("success", .vbool true), ("request_id", .vstr rid),
   ("enterprise", .vstr ea.name), ("company", .vstr ea.company_name),
   ("business_process", match processName with | some s => .vstr s | none => .vnone),
   ("result", .vdict finalRes)]

/-- Result of one `EnterpriseAgent.execute` call (the method itself never
raises: every fault is converted to the standard error response). -/
structure EntOut where
  result : Dict
  agent : EnterpriseAgent

/-- `EnterpriseAgent.execute`: request counter and request id, then input
validation (a failure returns the error response immediately — the audit
entry prepared for the call is dropped); then, inside the try-block,
authorization (`PermissionError` on failure), the compliance gate (a
violation is appended to the violations ledger and raises `ValueError`),
business-process or standard orchestration, and post-processing.  The
success path appends one `success` audit entry, the except path appends
one `failed` audit entry and logs the error. -/
def EnterpriseAgent.execute (ea : EnterpriseAgent) (input : Dict) : EntOut :=
  let rid := "REQ-" ++ toString ea.total_requests
  let ea1 := { ea with total_requests := ea.total_requests + 1 }
  let user := dgetD input "user" (.vstr "system")
  if !ea.validate_input input then
    let emsg := "Input-Validierung fehlgeschlagen: " ++ ea.name
    ⟨entErrorResponse ea rid emsg, { ea1 with error_log := ea1.error_log ++ [emsg] }⟩
  else
    let afterAuth : Except PyErr Unit :=
      if entAuthorized ea input then .ok () else
        .error ⟨"PermissionError", "Nicht autorisiert"⟩
    let body : Except PyErr Dict × EnterpriseAgent :=
      match afterAuth with
      | .error e => (.error e, ea1)
      | .ok _ =>
        match entCompliance ea input with
        | .error e => (.error e, ea1)
        | .ok (v :: vs) =>
          (.error ⟨"ValueError", "Compliance-Verletzung"⟩,
           { ea1 with compliance_violations := ea1.compliance_violations ++ [v :: vs] })
        | .ok [] =>
          let pname := identifyProcess ea input
          match pname with
          | some p =>
            match assocGet ea1.business_processes p with
            | some bp =>
              let bp2 := { bp with execution_count := bp.execution_count + 1 }
              let ea2 := { ea1 with
                business_processes := assocReplace ea1.business_processes p bp2 }
              let run := runBusinessSteps ea2 bp.flow input ea2.domain_agents
              let ea3 := { ea2 with domain_agents := run.2 }
              match run.1 with
              | .error e => (.error e, ea3)
              | .ok (results, finalState) =>
                (.ok [("process", .vstr p),
                      ("steps_executed", .vint (results.length : Int)),
                      ("results", .vlist (results.map .vdict)),
                      ("final_state", .vdict finalState)], ea3)
            | none =>
              let run := runStandardOrch ea1 input (relevantDomains ea1 input) ea1.domain_agents
              let ea3 := { ea1 with domain_agents := run.2 }
              (.ok [("orchestration", .vstr "standard"),
                    ("domains_invoked", .vlist (run.1.map (fun q => .vstr q.1))),
                    ("results", .vdict (run.1.map (fun q => (q.1, .vdict q.2))))], ea3)
          | none =>
            let run := runStandardOrch ea1 input (relevantDomains ea1 input) ea1.domain_agents
            let ea3 := { ea1 with domain_agents := run.2 }
            (.ok [("orchestration", .vstr "standard"),
                  ("domains_invoked", .vlist (run.1.map (fun q => .vstr q.1))),
                  ("results", .vdict (run.1.map (fun q => (q.1, .vdict q.2))))], ea3)
    match body with
    | (.ok result, ea3) =>
      let finalRes := postProcess ea3 result
      let out := entSuccessOut ea3 rid (identifyProcess ea input) finalRes
      let entry : AuditEntry := ⟨rid, user, input, some out, none, "success"⟩
      ⟨out, { ea3 with audit_trail := ea3.audit_trail ++ [entry] }⟩
    | (.error e, ea3) =>
      let entry : AuditEntry := ⟨rid, user, input, none, some e.msg, "failed"⟩
      ⟨entErrorResponse ea3 rid e.msg,
       { ea3 with audit_trail := ea3.audit_trail ++ [entry],
                  error_log := ea3.error_log ++ [e.msg] }⟩

/-! ## Registry (core/agent_registry.py)

The in-memory state: the `agents` dict and the `metadata_cache` (the cache
holds `agent.get_info()`; the model stores the agent itself as the cached
snapshot).  The SQLite persistence mirror is pure storage outside the
in-memory semantics (spec section 6 places storage outside the core) and,
like the in-memory path, is only touched after the collision guard. -/

structure Registry (A : Type) where
  agents : List (String × A)
  metadata_cache : List (String × A)

/-- `AgentRegistry.get`. -/
def Registry.get (r : Registry A) (name : String) : Option A :=
  assocGet r.agents name

/-- `AgentRegistry.register`: `agent.metadata.name` is passed explicitly;
on a name collision nothing is stored and the call reports `False`. -/
def Registry.register (r : Registry A) (name : String) (node : A) :
    Bool × Registry A :=
  if (assocGet r.agents name).isSome then (false, r)
  else
    (true, { agents := r.agents ++ [(name, node)],
             metadata_cache := r.metadata_cache ++ [(name, node)] })

/-- `AgentRegistry.exists`. -/
def Registry.existsName (r : Registry A) (name : String) : Bool :=
  (assocGet r.agents name).isSome

/-- `AgentRegistry.unregister`: remove the in-memory entries; reports
`False` for an unknown name. -/
def Registry.unregister (r : Registry A) (name : String) : Bool × Registry A :=
  if (assocGet r.agents name).isSome then
    (true, { agents := r.agents.filter (fun p => p.1 ≠ name),
             metadata_cache := r.metadata_cache.filter (fun p => p.1 ≠ name) })
  else (false, r)

/-! ## Derived observers and concrete instances used by the theorems -/

/-- The entry the parallel pipeline records for one child: the child output
dict, or the inline error entry for a raising child. -/
def parEntry (a : NanoAgent) (input : Val) : Dict :=
  match (a.execute input).result with
  | .ok (_, out) => out
  | .error err =>
    [("success", .vbool false), ("agent_name", .vstr a.name), ("error", .vstr err.msg)]

/-- The post-run state of one parallel child. -/
def parAgent (a : NanoAgent) (input : Val) : NanoAgent :=
  match (a.execute input).result with
  | .ok (a2, _) => a2
  | .error _ => a

/-- Whether building the parallel success output survives: the last entry
must carry a `result` key (an empty pipeline trivially survives). -/
def lastHasResult (results : List Dict) : Bool :=
  match results.getLast? with
  | none => true
  | some l => dmem l "result"

/-- The sleep before retry number `j + 1` (source: `retry_delay` scaled by
`2 ** (retries - 1)` under exponential backoff). -/
def retryDelay (cfg : RetryConfig) (j : Nat) : Rat :=
  if cfg.exponential_backoff then cfg.retry_delay * 2 ^ j else cfg.retry_delay

/-- A rule has a missing required field. -/
def ruleMissing (r : PolicyRule) (d : Dict) : Bool :=
  r.required_fields.any (fun f => !dmem d f)

/-- A rule has a present field carrying a forbidden value. -/
def ruleForbidden (r : PolicyRule) (d : Dict) : Bool :=
  checkForbidden r.forbidden_values d

/-- A rule has a present numeric field above its bound. -/
def ruleExceeded (r : PolicyRule) (d : Dict) : Bool :=
  r.max_value.any (fun p =>
    match dget d p.1 with
    | some (.vint i) => i > p.2
    | some (.vbool b) => (if b then (1 : Int) else 0) > p.2
    | _ => false)

/-- Every bounded field that is present carries a numeric value (so the
bound comparison cannot raise `TypeError`). -/
def boundsNumeric (r : PolicyRule) (d : Dict) : Prop :=
  ∀ p ∈ r.max_value, ∀ v, dget d p.1 = some v →
    (∃ i, v = Val.vint i) ∨ (∃ b, v = Val.vbool b)

/-- The named rules registered under one policy label. -/
def rulesOf (policies : List (String × List (String × PolicyRule)))
    (label : String) : List (String × PolicyRule) :=
  (assocGet policies label).getD []

/-- A wrapped operation that returns an empty dict. -/
def okAction : Dict → Except PyErr Val := fun _ => .ok (.vdict [])

/-- A wrapped operation that always faults. -/
def boomAction : Dict → Except PyErr Val := fun _ => .error ⟨"RuntimeError", "boom"⟩

def nanoOk (n : String) : NanoAgent := ⟨n, "id-" ++ n, okAction, [], 0⟩

def nanoBoom (n : String) : NanoAgent := ⟨n, "id-" ++ n, boomAction, [], 0⟩

/-- An atomic agent whose schema requires field `x`. -/
def nanoReq : NanoAgent := ⟨"reqAgent", "id-req", okAction, ["x"], 0⟩

/-- Sequential pipeline whose middle child fails. -/
def mikroSeqABC : MikroAgent :=
  ⟨"pipeABC", "id-pABC", [nanoOk "A", nanoBoom "B", nanoOk "C"], "sequential"⟩

/-- Parallel pipeline: failing child before a succeeding child. -/
def mikroParFS : MikroAgent :=
  ⟨"parFS", "id-pFS", [nanoBoom "F", nanoOk "S"], "parallel"⟩

/-- Parallel pipeline: succeeding child before a failing child. -/
def mikroParSF : MikroAgent :=
  ⟨"parSF", "id-pSF", [nanoOk "S", nanoBoom "F"], "parallel"⟩

/-- Parallel pipeline with two succeeding children. -/
def mikroParOkOk : MikroAgent :=
  ⟨"parXY", "id-pXY", [nanoOk "X", nanoOk "Y"], "parallel"⟩

/-- The default retry configuration of `SubAgent.__init__`:
`max_retries = 3, retry_delay = 1.0, exponential_backoff = True`. -/
def cfgDef : RetryConfig := ⟨3, 1, true⟩

/-- A process agent holding one atomic child and nothing else. -/
def saNano : SubAgent :=
  ⟨"procNano", "id-sN", [], [("a1", nanoOk "a1")], [], [], true, [], cfgDef, []⟩

/-- A process agent holding two pipeline children that both succeed. -/
def saTwo : SubAgent :=
  ⟨"procTwo", "id-sT",
   [("m1", ⟨"m1", "id-m1", [nanoOk "n1"], "sequential"⟩),
    ("m2", ⟨"m2", "id-m2", [nanoOk "n2"], "sequential"⟩)],
   [], [], [], true, [], cfgDef, []⟩

/-- A process agent used as a domain child (one atomic child inside). -/
def subX : SubAgent :=
  ⟨"subX", "id-sX", [], [("ax", nanoOk "ax")], [], [], true, [], cfgDef, []⟩

/-- A custom-type domain agent with one child and a global policy group
requiring field `x`. -/
def dCust : DomainAgent :=
  ⟨"domCust", "id-dC", .custom, [("subX", subX)],
   [("global", [("need_x", ⟨["x"], [], []⟩)])], [], [], ⟨0, 0, 0, 0⟩⟩

/-- An enterprise agent whose global policy requires field `x`, with the
default role table of `EnterpriseAgent.__init__`. -/
def entX : EnterpriseAgent :=
  ⟨"entX", "id-eX", .customInd, "ACME", [], ["x"], [], [],
   [("admin", ["*"]), ("operator", ["execute", "view"]), ("viewer", ["view"])],
   [], 0, [], []⟩

/-- A registry with one node registered under the name `alpha`. -/
def regOne : Registry Nat := ⟨[("alpha", 1)], [("alpha", 1)]⟩

/-! ## Claims -/

/-- C1 (counterexample): an atomic agent whose validation fails does not
return an Outcome at all — `execute` raises `ValueError` (the claim states
it returns a non-success `InvalidInput` Outcome rather than raising). -/
theorem C1_counterexample :
    nanoReq.execute (Val.vdict []) =
      ⟨.error ⟨"ValueError", "Input-Validierung fehlgeschlagen: reqAgent"⟩, [], false⟩ := rfl

/-- C1 (amended): whenever `validate_input` returns false, the atomic
`execute` raises a `ValueError` fault instead of returning an Outcome; no
`before_execute` or `after_execute` callback fires and the wrapped
operation is never invoked (no side effects). -/
theorem C1_validate_false_raises (a : NanoAgent) (input : Val)
    (h : a.validate_input input = .ok false) :
    a.execute input =
      ⟨.error ⟨"ValueError", "Input-Validierung fehlgeschlagen: " ++ a.name⟩,
       [], false⟩ := by
  simp only [NanoAgent.execute, h]

/-- C1 (witness): the amended theorem at a concrete agent and input. -/
theorem C1_witness :
    nanoReq.validate_input (Val.vdict []) = .ok false ∧
    nanoReq.execute (Val.vdict []) =
      ⟨.error ⟨"ValueError", "Input-Validierung fehlgeschlagen: " ++ nanoReq.name⟩,
       [], false⟩ :=
  ⟨rfl, C1_validate_false_raises nanoReq (Val.vdict []) rfl⟩

/-- C2 (evaluation at the failing input): in the sequential pipeline
A-B-C where B fails, children run in order and C is never invoked (two
invocations, only A counted), but the non-success Outcome reports
`failed_at_step = 0` and an empty `partial_results` list, because the
exception raised inside `_execute_sequential` discards the inner results
list before the caller-visible `results` binding is assigned. -/
theorem C2_partial_results_lost :
    (mikroSeqABC.execute (Val.vdict [])).invoked = 2 ∧
    (mikroSeqABC.execute (Val.vdict [])).result.map (fun dd =>
      (dgetD dd "success" .vnone, dgetD dd "failed_at_step" .vnone,
       dgetD dd "partial_results" .vnone)) =
      .ok (.vbool false, .vint 0, .vlist []) ∧
    (mikroSeqABC.execute (Val.vdict [])).agents.map (·.execution_count) = [1, 0, 0] :=
  ⟨rfl, rfl, rfl⟩

/-- C7 (counterexample): a faulting wrapped operation is invoked (the flag
is set) yet the invocation counter of the returned agent is still zero —
the counter is not updated for every invocation, only for the successful
ones. -/
theorem C7_counterexample :
    ((nanoBoom "b").execute (Val.vdict [])).actionInvoked = true ∧
    ((nanoBoom "b").execute (Val.vdict [])).result.map (fun p => p.1.execution_count) =
      .ok 0 :=
  ⟨rfl, rfl⟩

/-- C7 (amended): when validation passes, the atomic `execute` never raises:
a normal return of the wrapped operation yields the success Outcome and
increments the invocation counter, while a fault is caught and converted to
a non-success Outcome carrying the fault kind and message, leaving the
counter unchanged. -/
theorem C7_fault_caught (a : NanoAgent) (v : Val)
    (h : a.validate_input v = .ok true) :
    (∀ r, applyAction a.action v = (.ok r, true) →
      a.execute v =
        ⟨.ok ({ a with execution_count := a.execution_count + 1 },
              nanoSuccessOut { a with execution_count := a.execution_count + 1 } r),
         ["before_execute", "after_execute"], true⟩) ∧
    (∀ e inv, applyAction a.action v = (.error e, inv) →
      a.execute v = ⟨.ok (a, nanoErrorOut a e), ["before_execute", "on_error"], inv⟩ ∧
      dget (nanoErrorOut a e) "error" = some (.vstr e.msg) ∧
      dget (nanoErrorOut a e) "error_type" = some (.vstr e.ty)) := by
  constructor
  · intro r hr
    simp only [NanoAgent.execute, h, hr]
  · intro e inv he
    refine ⟨?_, rfl, rfl⟩
    simp only [NanoAgent.execute, h, he]

/-- C7 (witness): the amended theorem at a concrete faulting operation. -/
theorem C7_witness :
    (nanoBoom "b").execute (Val.vdict []) =
      ⟨.ok (nanoBoom "b", nanoErrorOut (nanoBoom "b") ⟨"RuntimeError", "boom"⟩),
       ["before_execute", "on_error"], true⟩ ∧
    dget (nanoErrorOut (nanoBoom "b") ⟨"RuntimeError", "boom"⟩) "error" =
      some (.vstr "boom") ∧
    dget (nanoErrorOut (nanoBoom "b") ⟨"RuntimeError", "boom"⟩) "error_type" =
      some (.vstr "RuntimeError") :=
  (C7_fault_caught (nanoBoom "b") (Val.vdict []) rfl).2 ⟨"RuntimeError", "boom"⟩ true rfl

/-- C10: registering a node under an already-registered name returns false
and leaves the registry unchanged; `get` still returns the previously
registered node. -/
theorem C10_register_collision {A : Type} (r : Registry A) (name : String)
    (node a0 : A) (h : r.get name = some a0) :
    r.register name node = (false, r) ∧
    (r.register name node).2.get name = some a0 := by
  have hs : (assocGet r.agents name).isSome = true := by
    unfold Registry.get at h
    simp [h]
  unfold Registry.register
  rw [hs]
  simp [h]

/-- C10 (witness): the collision theorem at a concrete registry. -/
theorem C10_witness :
    regOne.register "alpha" 2 = (false, regOne) ∧
    (regOne.register "alpha" 2).2.get "alpha" = some 1 :=
  C10_register_collision regOne "alpha" 2 1 rfl

/-- A present key yields a value (`dmem` and `dget` agree). -/
theorem dmem_exists_dget (d : Dict) (k : String) (h : dmem d k = true) :
    ∃ v, dget d k = some v := by
  induction d with
  | nil => simp [dmem] at h
  | cons p rest ih =>
    by_cases hk : p.1 = k
    · exact ⟨p.2, by simp [dget, List.find?, hk]⟩
    · simp [dmem, hk] at h
      obtain ⟨v, hv⟩ := ih (by simpa [dmem] using h)
      exact ⟨v, by simpa [dget, List.find?, hk] using hv⟩

/-- An absent key yields no value. -/
theorem dmem_none_dget (d : Dict) (k : String) (h : dmem d k = false) :
    dget d k = none := by
  induction d with
  | nil => rfl
  | cons p rest ih =>
    simp [dmem] at h
    have hrest : dmem rest k = false := by
      simp [dmem]
      exact h.2
    simpa [dget, List.find?, h.1] using ih hrest

/-- `_execute_parallel` is the index-aligned map of the per-child entry
over the child list, every child receiving the same input. -/
theorem execPar_is_map (agents : List NanoAgent) (input : Val) :
    execPar agents input =
      (agents.map (fun a => parEntry a input), agents.map (fun a => parAgent a input)) := by
  induction agents with
  | nil => rfl
  | cons a rest ih =>
    simp only [execPar, List.map_cons, ih, parEntry, parAgent]
    cases (a.execute input).result <;> rfl

/-- Projection of the pipeline success output when the last entry carries a
`result` key (or the list is empty): construction succeeds and reports the
full entry list. -/
theorem mikroSuccessOut_proj_hasResult (m : MikroAgent) (rs : List Dict)
    (h : lastHasResult rs = true) :
    (mikroSuccessOut m rs).map (fun d =>
      (dgetD d "success" .vnone, dgetD d "nano_results" .vnone)) =
      .ok (.vbool true, .vlist (rs.map .vdict)) := by
  unfold lastHasResult at h
  unfold mikroSuccessOut
  cases hL : rs.getLast? with
  | none => rfl
  | some l =>
    rw [hL] at h
    have h2 : dmem l "result" = true := h
    obtain ⟨v, hv⟩ := dmem_exists_dget l "result" h2
    simp only [hv]
    rfl

/-- Projection of the pipeline output construction when the last entry lacks
a `result` key: it raises `KeyError`. -/
theorem mikroSuccessOut_keyError (m : MikroAgent) (rs : List Dict)
    (h : lastHasResult rs = false) :
    mikroSuccessOut m rs = .error ⟨"KeyError", "result"⟩ := by
  unfold lastHasResult at h
  unfold mikroSuccessOut
  cases hL : rs.getLast? with
  | none =>
    rw [hL] at h
    simp at h
  | some l =>
    rw [hL] at h
    have h2 : dmem l "result" = false := h
    simp only [dmem_none_dget l "result" h2]

/-- C3 (counterexample): the overall success flag of a parallel pipeline is
implicitly fixed by the code, not caller-configurable: the two pipelines
below differ only in child order, carry no success-policy configuration,
and one reports overall success although a child failed while the other
reports failure. -/
theorem C3_counterexample :
    (mikroParFS.execute (Val.vdict [])).result.map (fun d => dgetD d "success" .vnone) =
      .ok (.vbool true) ∧
    (mikroParSF.execute (Val.vdict [])).result.map
      (fun d => (dgetD d "success" .vnone, dgetD d "failed_at_step" .vnone)) =
      .ok (.vbool false, .vint 2) :=
  ⟨rfl, rfl⟩

/-- C3 (amended): in a validated parallel pipeline every child is invoked on
the same input, all per-child Outcomes are reported index-aligned with the
child list (in `nano_results` on success, in `partial_results` otherwise),
and the overall success flag is implicitly fixed, not configurable: it is
true exactly when the pipeline is empty or the last child output carries a
`result` key (a failing last child makes the output construction raise
`KeyError`, producing a non-success Outcome). -/
theorem C3_parallel_reports_all (m : MikroAgent) (input : Val)
    (hmode : m.pipeline_mode = "parallel")
    (hval : m.validate_input input = .ok true) :
    (m.execute input).invoked = m.nano_agents.length ∧
    (m.execute input).agents = m.nano_agents.map (fun a => parAgent a input) ∧
    (lastHasResult (m.nano_agents.map (fun a => parEntry a input)) = true →
      (m.execute input).result.map (fun d =>
        (dgetD d "success" .vnone, dgetD d "nano_results" .vnone)) =
        .ok (.vbool true,
             .vlist ((m.nano_agents.map (fun a => parEntry a input)).map .vdict))) ∧
    (lastHasResult (m.nano_agents.map (fun a => parEntry a input)) = false →
      (m.execute input).result.map (fun d =>
        (dgetD d "success" .vnone, dgetD d "failed_at_step" .vnone,
         dgetD d "partial_results" .vnone)) =
        .ok (.vbool false, .vint (m.nano_agents.length : Int),
             .vlist ((m.nano_agents.map (fun a => parEntry a input)).map .vdict))) := by
  have hpar := execPar_is_map m.nano_agents input
  have hout : m.execute input =
      (match mikroSuccessOut m (m.nano_agents.map (fun a => parEntry a input)) with
       | .ok out =>
         ⟨.ok out, m.nano_agents.map (fun a => parAgent a input),
          (m.nano_agents.map (fun a => parEntry a input)).length⟩
       | .error kerr =>
         ⟨.ok (mikroErrorOut m kerr.msg
            (m.nano_agents.map (fun a => parEntry a input)).length
            (m.nano_agents.map (fun a => parEntry a input))),
          m.nano_agents.map (fun a => parAgent a input),
          (m.nano_agents.map (fun a => parEntry a input)).length⟩) := by
    simp only [MikroAgent.execute, hval, hmode]
    simp only [hpar]
    rfl
  refine ⟨?_, ?_, ?_, ?_⟩
  · rw [hout]
    cases mikroSuccessOut m (m.nano_agents.map (fun a => parEntry a input)) <;>
      simp [List.length_map]
  · rw [hout]
    cases mikroSuccessOut m (m.nano_agents.map (fun a => parEntry a input)) <;> simp
  · intro hlast
    rw [hout]
    have hproj := mikroSuccessOut_proj_hasResult m
      (m.nano_agents.map (fun a => parEntry a input)) hlast
    cases hM : mikroSuccessOut m (m.nano_agents.map (fun a => parEntry a input)) with
    | ok out =>
      rw [hM] at hproj
      simpa using hproj
    | error kerr =>
      rw [hM] at hproj
      simp [Except.map] at hproj
  · intro hlast
    rw [hout]
    have hK := mikroSuccessOut_keyError m
      (m.nano_agents.map (fun a => parEntry a input)) hlast
    simp only [hK, mikroErrorOut, List.length_map]
    rfl

/-- C3 (witness): the amended theorem at a concrete two-child parallel
pipeline whose children both succeed. -/
theorem C3_witness :
    (mikroParOkOk.execute (Val.vdict [])).invoked = mikroParOkOk.nano_agents.length ∧
    (mikroParOkOk.execute (Val.vdict [])).agents =
      mikroParOkOk.nano_agents.map (fun a => parAgent a (Val.vdict [])) ∧
    (mikroParOkOk.execute (Val.vdict [])).result.map (fun d =>
      (dgetD d "success" .vnone, dgetD d "nano_results" .vnone)) =
      .ok (.vbool true,
           .vlist ((mikroParOkOk.nano_agents.map
             (fun a => parEntry a (Val.vdict []))).map .vdict)) := by
  have h := C3_parallel_reports_all mikroParOkOk (Val.vdict []) rfl rfl
  exact ⟨h.1, h.2.1, h.2.2.1 rfl⟩

/-- C4 (counterexample): with the default Process retry configuration
(`max_retries = 3`), a child that faults on every attempt is invoked four
times — the initial attempt plus three retries — not three times as the
claim states for `maxAttempts = 3`. -/
theorem C4_counterexample :
    (runRetry cfgDef
      (fun (n : Nat) => ((.error ⟨"RuntimeError", "boom"⟩ : Except PyErr Dict), n + 1))
      0).attempts = 4 := rfl

/-- The retry loop under an always-faulting step, tracked by attempt index:
from loop counter `retries` with matching fuel, the loop makes `fuel`
attempts, sleeps the backoff schedule between them, and re-raises the fault
of the final attempt. -/
theorem retryAux_allFault (cfg : RetryConfig) (efn : Nat → PyErr) :
    ∀ fuel retries e0, 1 ≤ fuel → retries + fuel = cfg.max_retries + 1 →
      retryAux cfg (fun n => ((.error (efn n) : Except PyErr Dict), n + 1))
          fuel retries retries e0 =
        ⟨.error (efn cfg.max_retries), cfg.max_retries + 1, fuel,
         (List.range (fuel - 1)).map (fun i => retryDelay cfg (retries + i))⟩ := by
  intro fuel
  induction fuel with
  | zero => intro retries e0 h1 _; omega
  | succ f ih =>
    intro retries e0 _ hsum
    match f, ih with
    | 0, _ =>
      have hr : retries = cfg.max_retries := by omega
      unfold retryAux
      simp only [hr]
      have hgate : ¬ (cfg.max_retries + 1 ≤ cfg.max_retries) := by omega
      simp [hgate]
    | g + 1, ih =>
      have hgate : retries + 1 ≤ cfg.max_retries := by omega
      have hrec := ih (retries + 1) (efn retries) (by omega) (by omega)
      unfold retryAux
      simp only [hgate, if_pos, hrec]
      refine congrArg _ ?_
      have hdelay : (if cfg.exponential_backoff
          then cfg.retry_delay * 2 ^ (retries + 1 - 1) else cfg.retry_delay) =
          retryDelay cfg retries := by
        simp [retryDelay]
      rw [hdelay]
      have : List.range (g + 1) = 0 :: (List.range g).map Nat.succ :=
        List.range_succ_eq_map g
      rw [show (g + 1 + 1 - 1) = g + 1 from rfl, this]
      simp only [List.map_cons, List.map_map, Nat.add_zero]
      refine congrArg _ ?_
      rw [show (g + 1 - 1) = g from rfl]
      refine List.map_congr_left ?_
      intro i _
      simp [Function.comp]
      refine congrArg _ ?_
      omega

/-- C4 (amended): under retry configuration `{max_retries, retry_delay,
exponential_backoff}`, a child invocation that faults on every attempt is
invoked exactly `max_retries + 1` times (the initial attempt plus up to
`max_retries` retries); the wait before retry number k is
`retry_delay * 2 ^ (k - 1)` under exponential backoff and `retry_delay`
otherwise; after exhaustion the fault of the last attempt is re-raised (so
it reaches the Process error-handler stage rather than being swallowed). -/
theorem C4_retry_schedule (cfg : RetryConfig) (efn : Nat → PyErr) :
    runRetry cfg (fun n => ((.error (efn n) : Except PyErr Dict), n + 1)) 0 =
      ⟨.error (efn cfg.max_retries), cfg.max_retries + 1, cfg.max_retries + 1,
       (List.range cfg.max_retries).map (retryDelay cfg)⟩ := by
  unfold runRetry
  have h := retryAux_allFault cfg efn (cfg.max_retries + 1) 0 ⟨"NoneType", "None"⟩
    (by omega) (by omega)
  simpa using h

/-- When every bounded field present in the input is numeric, the bound loop
cannot raise; stated over a bare bound list. -/
theorem checkMax_numeric_aux (d : Dict) :
    ∀ (l : List (String × Int)),
      (∀ p ∈ l, ∀ v, dget d p.1 = some v →
        (∃ i, v = Val.vint i) ∨ (∃ b, v = Val.vbool b)) →
      checkMax l d = .ok (ruleExceeded ⟨[], [], l⟩ d) := by
  intro l
  induction l with
  | nil => intro _; rfl
  | cons p rest ih =>
    intro h
    have hrest := ih (fun q hq v hv => h q (List.mem_cons_of_mem p hq) v hv)
    unfold ruleExceeded at hrest ⊢
    cases hd : dget d p.1 with
    | none =>
      unfold checkMax
      simp [hd, hrest]
    | some v =>
      rcases h p (List.mem_cons_self p rest) v hd with ⟨i, rfl⟩ | ⟨b, rfl⟩
      · unfold checkMax
        by_cases hc : i > p.2
        · simp [hd, hc]
        · simp [hd, hc, hrest]
      · unfold checkMax
        by_cases hc : (if b then (1 : Int) else 0) > p.2
        · simp [hd, hc]
        · simp [hd, hc, hrest]

/-- The bound loop on numeric input reports exactly whether the rule has an
exceeded bound. -/
theorem checkMax_numeric (r : PolicyRule) (d : Dict) (h : boundsNumeric r d) :
    checkMax r.max_value d = .ok (ruleExceeded r d) :=
  checkMax_numeric_aux d r.max_value h

/-- A rule evaluation on numeric bounds never raises, and passes exactly
when no required field is missing, no forbidden value is present, and no
numeric bound is exceeded. -/
theorem evalRule_char (r : PolicyRule) (d : Dict) (h : boundsNumeric r d) :
    evalRule r d = .ok (!(ruleMissing r d || ruleForbidden r d || ruleExceeded r d)) := by
  unfold evalRule ruleMissing ruleForbidden
  by_cases h1 : r.required_fields.any (fun f => !dmem d f)
  · simp [h1]
  · simp only [h1]
    by_cases h2 : checkForbidden r.forbidden_values d
    · simp [h2]
    · simp only [h2, checkMax_numeric r d h]
      cases h3 : ruleExceeded r d <;> simp [h1, h2, h3]

/-- A rule group reports no violation exactly when every rule in it
passes. -/
theorem checkRuleGroup_allPass (grp : List (String × PolicyRule)) (d : Dict) :
    checkRuleGroup grp d = .ok none ↔ ∀ q ∈ grp, evalRule q.2 d = .ok true := by
  induction grp with
  | nil => simp [checkRuleGroup]
  | cons q rest ih =>
    unfold checkRuleGroup
    cases hq : evalRule q.2 d with
    | error e => simp [hq]
    | ok b =>
      cases b
      · simp [hq]
      · simp [hq, ih]

/-- The policy gate allows the call exactly when every rule registered
under the reserved `global` label and every rule registered under the
matched request-type label passes. -/
theorem checkPolicies_allPass (policies : List (String × List (String × PolicyRule)))
    (rt : String) (d : Dict) :
    checkPolicies policies rt d = .ok (true, none) ↔
      ((∀ q ∈ rulesOf policies "global", evalRule q.2 d = .ok true) ∧
       (∀ q ∈ rulesOf policies rt, evalRule q.2 d = .ok true)) := by
  unfold checkPolicies rulesOf
  cases hg : assocGet policies "global" with
  | none =>
    cases hr : assocGet policies rt with
    | none => simp
    | some grp =>
      cases hcg : checkRuleGroup grp d with
      | error e =>
        constructor
        · intro hx
          simp [hcg] at hx
        · rintro ⟨_, hall⟩
          have hall2 : ∀ q ∈ grp, evalRule q.2 d = .ok true := hall
          have hnone := (checkRuleGroup_allPass grp d).mpr hall2
          rw [hcg] at hnone
          simp at hnone
      | ok o =>
        cases o with
        | none =>
          simp [hcg]
          exact fun a b hab => (checkRuleGroup_allPass grp d).mp hcg (a, b) hab
        | some rn =>
          constructor
          · intro hx
            simp [hcg] at hx
          · rintro ⟨_, hall⟩
            have hall2 : ∀ q ∈ grp, evalRule q.2 d = .ok true := hall
            have hnone := (checkRuleGroup_allPass grp d).mpr hall2
            rw [hcg] at hnone
            simp at hnone
  | some ggrp =>
    cases hcg : checkRuleGroup ggrp d with
    | error e =>
      constructor
      · intro hx
        simp [hcg] at hx
      · rintro ⟨hall, _⟩
        have hall2 : ∀ q ∈ ggrp, evalRule q.2 d = .ok true := hall
        have hnone := (checkRuleGroup_allPass ggrp d).mpr hall2
        rw [hcg] at hnone
        simp at hnone
    | ok o =>
      cases o with
      | some rn =>
        constructor
        · intro hx
          simp [hcg] at hx
        · rintro ⟨hall, _⟩
          have hall2 : ∀ q ∈ ggrp, evalRule q.2 d = .ok true := hall
          have hnone := (checkRuleGroup_allPass ggrp d).mpr hall2
          rw [hcg] at hnone
          simp at hnone
      | none =>
        have hgall := (checkRuleGroup_allPass ggrp d).mp hcg
        cases hr : assocGet policies rt with
        | none =>
          simp [hcg]
          exact fun a b hab => hgall (a, b) hab
        | some grp =>
          cases hcr : checkRuleGroup grp d with
          | error e =>
            constructor
            · intro hx
              simp [hcg, hcr] at hx
            · rintro ⟨_, hall⟩
              have hall2 : ∀ q ∈ grp, evalRule q.2 d = .ok true := hall
              have hnone := (checkRuleGroup_allPass grp d).mpr hall2
              rw [hcr] at hnone
              simp at hnone
          | ok o2 =>
            cases o2 with
            | some rn =>
              constructor
              · intro hx
                simp [hcg, hcr] at hx
              · rintro ⟨_, hall⟩
                have hall2 : ∀ q ∈ grp, evalRule q.2 d = .ok true := hall
                have hnone := (checkRuleGroup_allPass grp d).mpr hall2
                rw [hcr] at hnone
                simp at hnone
            | none =>
              simp [hcg, hcr]
              exact ⟨fun a b hab => hgall (a, b) hab,
                     fun a b hab => (checkRuleGroup_allPass grp d).mp hcr (a, b) hab⟩

/-- C5: a policy rule fails exactly on a missing required field, a present
forbidden value, or an exceeded numeric bound; the policy gate passes
exactly when every rule of the reserved `global` label and of the matched
request-type label passes; and on any violation the Domain execute call
returns a non-success Outcome of kind `PermissionError` (message prefix
`Policy-Verletzung`, the realisation of `PolicyViolation`) without
executing any child Sub-Agent, so the children are left unchanged. -/
theorem C5_policy_gate (d : DomainAgent) (input : Dict) (elapsed : Rat) :
    (∀ r : PolicyRule, boundsNumeric r input →
      (evalRule r input = .ok false ↔
        (ruleMissing r input || ruleForbidden r input || ruleExceeded r input) = true)) ∧
    (∀ rt, checkPolicies d.policies rt input = .ok (true, none) ↔
      ((∀ q ∈ rulesOf d.policies "global", evalRule q.2 input = .ok true) ∧
       (∀ q ∈ rulesOf d.policies rt, evalRule q.2 input = .ok true))) ∧
    (d.validate_input input = true →
     ∀ reason, checkPolicies d.policies (classifyRequest d input) input =
         .ok (false, reason) →
       (d.execute input elapsed).result =
         .ok (domErrorOut d ⟨"PermissionError",
           "Policy-Verletzung: " ++ reason.getD ""⟩) ∧
       dget (domErrorOut d ⟨"PermissionError", "Policy-Verletzung: " ++ reason.getD ""⟩)
         "success" = some (.vbool false) ∧
       dget (domErrorOut d ⟨"PermissionError", "Policy-Verletzung: " ++ reason.getD ""⟩)
         "error_type" = some (.vstr "PermissionError") ∧
       (d.execute input elapsed).agent.sub_agents = d.sub_agents) := by
  refine ⟨?_, fun rt => checkPolicies_allPass d.policies rt input, ?_⟩
  · intro r h
    rw [evalRule_char r input h]
    cases hx : (ruleMissing r input || ruleForbidden r input || ruleExceeded r input) <;>
      simp [hx]
  · intro hval reason hpol
    have hbody : domBody d input (classifyRequest d input) =
        .error ⟨"PermissionError", "Policy-Verletzung: " ++ reason.getD ""⟩ := by
      unfold domBody
      rw [hpol]
    refine ⟨?_, rfl, rfl, ?_⟩
    · unfold DomainAgent.execute
      simp [hval, hbody]
    · unfold DomainAgent.execute
      simp [hval, hbody]

/-- C5 (witness): the policy-gate theorem at a concrete domain whose global
policy requires field `x`, called with an input lacking `x`. -/
theorem C5_witness :
    (dCust.execute [] 5).result =
      .ok (domErrorOut dCust ⟨"PermissionError",
        "Policy-Verletzung: " ++ (some "Globale Policy verletzt: need_x").getD ""⟩) ∧
    (dCust.execute [] 5).agent.sub_agents = dCust.sub_agents ∧
    (evalRule ⟨["x"], [], []⟩ [] = .ok false ↔
      (ruleMissing ⟨["x"], [], []⟩ [] || ruleForbidden ⟨["x"], [], []⟩ [] ||
       ruleExceeded ⟨["x"], [], []⟩ []) = true) := by
  have h := C5_policy_gate dCust [] 5
  have h3 := h.2.2 rfl (some "Globale Policy verletzt: need_x") rfl
  exact ⟨h3.1, h3.2.2.2, h.1 ⟨["x"], [], []⟩ (fun p hp => absurd hp (List.not_mem_nil p))⟩

/-- C6 (evaluation at the failing input): an Enterprise execute call that
fails input validation completes with a non-success response but appends
no audit entry at all, while a call that passes validation and then fails
(here: authorization) appends exactly one entry — so not every call
appends an audit entry, contradicting the claim for the
input-validation-failure ending. -/
theorem C6_validation_skips_audit :
    (entX.execute []).agent.audit_trail.length = entX.audit_trail.length ∧
    dgetD (entX.execute []).result "success" .vnone = .vbool false ∧
    (entX.execute [("x", .vint 1)]).agent.audit_trail.length =
      entX.audit_trail.length + 1 :=
  ⟨rfl, rfl, rfl⟩

/-- C8 (counterexample): a failed Domain call (here a policy violation)
increments `total_requests` and `failed_requests` but leaves the
running-average latency untouched even though 5 time units elapsed — the
average is not updated on every call. -/
theorem C8_counterexample :
    (dCust.execute [] 5).agent.domain_metrics = ⟨1, 0, 1, 0⟩ ∧
    (dCust.execute [] 5).agent.domain_metrics.average_response_time =
      dCust.domain_metrics.average_response_time := by
  constructor
  · decide
  · decide

/-- C8 (amended): on every Domain execute call, `total_requests` increments
by one and exactly one of `successful_requests` or `failed_requests`
increments by one; the running-average latency is folded in only on the
success path and is left unchanged on every failure path. -/
theorem C8_metrics_update (d : DomainAgent) (input : Dict) (elapsed : Rat) :
    (d.execute input elapsed).agent.domain_metrics.total_requests =
      d.domain_metrics.total_requests + 1 ∧
    (((d.execute input elapsed).agent.domain_metrics.successful_requests =
        d.domain_metrics.successful_requests + 1 ∧
      (d.execute input elapsed).agent.domain_metrics.failed_requests =
        d.domain_metrics.failed_requests ∧
      (d.execute input elapsed).agent.domain_metrics.average_response_time =
        updatedAverage
          ⟨d.domain_metrics.total_requests + 1,
           d.domain_metrics.successful_requests + 1,
           d.domain_metrics.failed_requests,
           d.domain_metrics.average_response_time⟩ elapsed) ∨
     ((d.execute input elapsed).agent.domain_metrics.failed_requests =
        d.domain_metrics.failed_requests + 1 ∧
      (d.execute input elapsed).agent.domain_metrics.successful_requests =
        d.domain_metrics.successful_requests ∧
      (d.execute input elapsed).agent.domain_metrics.average_response_time =
        d.domain_metrics.average_response_time)) := by
  unfold DomainAgent.execute
  by_cases hv : d.validate_input input
  · simp only [hv]
    cases hb : domBody d input (classifyRequest d input) with
    | ok pr =>
      refine ⟨by simp, Or.inl ⟨by simp, by simp, by simp [updatedAverage]⟩⟩
    | error e =>
      refine ⟨by simp, Or.inr ⟨by simp, by simp, by simp⟩⟩
  · simp only [hv]
    refine ⟨by simp, Or.inr ⟨by simp, by simp, by simp⟩⟩

/-- A child dispatch that returns a result appends it to the context and
advances the step counter. -/
theorem subExecAgent_ok_ctx (cfg : RetryConfig) (ch : ChildAgent) (ctx : ProcessCtx)
    (dd : Dict) (h : (subExecAgent cfg ch ctx).result = .ok dd) :
    (subExecAgent cfg ch ctx).ctx =
      { ctx with results := ctx.results ++ [dd],
                 current_step := ctx.current_step + 1 } := by
  simp only [subExecAgent] at h ⊢
  cases hr : (runRetry cfg (fun c =>
      match prepareInput ctx with
      | .error e => (.error e, c)
      | .ok inp => ChildAgent.run c (.vdict inp)) ch).result with
  | ok d2 =>
    rw [hr] at h
    simp at h
    simp [hr, h]
  | error e =>
    rw [hr] at h
    simp at h

/-- When no conditional flow ever selects a child, the flow loop is a
no-op. -/
theorem runFlows_noselect (cfg : RetryConfig) :
    ∀ (flows : List CondFlow) (ctx : ProcessCtx),
      (∀ f ∈ flows, ∀ c, flowSelect f c = none) →
      runFlows cfg flows ctx = ⟨none, flows, ctx, []⟩ := by
  intro flows
  induction flows with
  | nil => intro ctx _; rfl
  | cons f rest ih =>
    intro ctx h
    unfold runFlows
    rw [h f (List.mem_cons_self f rest) ctx]
    simp [ih ctx (fun g hg c => h g (List.mem_cons_of_mem f hg) c)]

/-- The fallback dispatch list is a prefix of the registered mikro-agent
names, in insertion order. -/
theorem runFallback_prefix (cfg : RetryConfig) (stop : Bool) :
    ∀ (children : List (String × MikroAgent)) (ctx : ProcessCtx),
      ∃ k, k ≤ children.length ∧
        (runFallback cfg stop children ctx).dispatched =
          (children.map (·.1)).take k := by
  intro children
  induction children with
  | nil => intro ctx; exact ⟨0, by simp, rfl⟩
  | cons c rest ih =>
    intro ctx
    unfold runFallback
    cases ho : (subExecAgent cfg (.mikroC c.2) ctx).result with
    | error e => exact ⟨1, by simp, by simp [ho]⟩
    | ok d =>
      by_cases hf : !pyTruthy (dgetD d "success" .vnone) && stop
      · exact ⟨1, by simp, by simp [ho, hf]⟩
      · obtain ⟨k, hk, hdisp⟩ := ih (subExecAgent cfg (.mikroC c.2) ctx).ctx
        refine ⟨k + 1, by simp; omega, ?_⟩
        simp [ho, hf, hdisp]

/-- A fallback run that completes without raising has dispatched every
registered mikro agent, and has advanced the step counter once per
child. -/
theorem runFallback_ok_all (cfg : RetryConfig) (stop : Bool) :
    ∀ (children : List (String × MikroAgent)) (ctx : ProcessCtx),
      (runFallback cfg stop children ctx).result = .ok () →
      (runFallback cfg stop children ctx).dispatched = children.map (·.1) ∧
      (runFallback cfg stop children ctx).ctx.current_step =
        ctx.current_step + children.length := by
  intro children
  induction children with
  | nil => intro ctx _; exact ⟨rfl, rfl⟩
  | cons c rest ih =>
    intro ctx hok
    simp only [runFallback] at hok ⊢
    cases ho : (subExecAgent cfg (.mikroC c.2) ctx).result with
    | error e =>
      rw [ho] at hok
      simp at hok
    | ok d =>
      rw [ho] at hok
      by_cases hf : !pyTruthy (dgetD d "success" .vnone) && stop
      · simp [hf] at hok
      · simp only [hf] at hok ⊢
        have hstep := subExecAgent_ok_ctx cfg (.mikroC c.2) ctx d ho
        rw [hstep] at hok ⊢
        have hrec := ih _ (by simpa using hok)
        refine ⟨by simp [hrec.1], ?_⟩
        simp [hrec.2]
        omega

/-- With `stop_on_error` set, a first child whose returned outcome is
non-success aborts the fallback at once: only that child is dispatched and
the loop raises. -/
theorem runFallback_stop_abort (cfg : RetryConfig) (n : String) (m : MikroAgent)
    (rest : List (String × MikroAgent)) (ctx : ProcessCtx) (dd : Dict)
    (hok : (subExecAgent cfg (.mikroC m) ctx).result = .ok dd)
    (hfail : pyTruthy (dgetD dd "success" .vnone) = false) :
    (runFallback cfg true ((n, m) :: rest) ctx).dispatched = [n] ∧
    (runFallback cfg true ((n, m) :: rest) ctx).result =
      .error ⟨"Exception", "Mikro-Agent fehlgeschlagen: " ++ n⟩ := by
  unfold runFallback
  simp [hok, hfail]

/-- With no applicable workflow and no selecting conditional flow, a
Process execute call reduces to the fallback iteration over the registered
mikro agents. -/
theorem subExecute_noflow (sa : SubAgent) (input : Dict)
    (hval : sa.validate_input input = true)
    (hwf : ∀ w, workflowKeyOf input = some w → assocGet sa.workflows w = none)
    (hfl : ∀ f ∈ sa.conditional_flows, ∀ c, flowSelect f c = none) :
    sa.execute input =
      (match (runFallback sa.retry_config sa.stop_on_error sa.mikro_agents
                ⟨input, 0, [], 0⟩).result with
       | .ok _ =>
         ⟨.ok (subSuccessOut
            { sa with mikro_agents := (runFallback sa.retry_config sa.stop_on_error
                sa.mikro_agents ⟨input, 0, [], 0⟩).children }
            (.vlist ((runFallback sa.retry_config sa.stop_on_error sa.mikro_agents
                ⟨input, 0, [], 0⟩).ctx.results.map .vdict))
            (runFallback sa.retry_config sa.stop_on_error sa.mikro_agents
                ⟨input, 0, [], 0⟩).ctx),
          { sa with mikro_agents := (runFallback sa.retry_config sa.stop_on_error
              sa.mikro_agents ⟨input, 0, [], 0⟩).children },
          (runFallback sa.retry_config sa.stop_on_error sa.mikro_agents
              ⟨input, 0, [], 0⟩).dispatched, none⟩
       | .error e =>
         match handleError
             { sa with mikro_agents := (runFallback sa.retry_config sa.stop_on_error
                 sa.mikro_agents ⟨input, 0, [], 0⟩).children } e
             (runFallback sa.retry_config sa.stop_on_error sa.mikro_agents
                 ⟨input, 0, [], 0⟩).ctx with
         | some rv =>
           ⟨.ok (subRecoveredOut
              { sa with mikro_agents := (runFallback sa.retry_config sa.stop_on_error
                  sa.mikro_agents ⟨input, 0, [], 0⟩).children } rv e),
            { sa with mikro_agents := (runFallback sa.retry_config sa.stop_on_error
                sa.mikro_agents ⟨input, 0, [], 0⟩).children },
            (runFallback sa.retry_config sa.stop_on_error sa.mikro_agents
                ⟨input, 0, [], 0⟩).dispatched, some e⟩
         | none =>
           ⟨.ok (subErrorOut
              { sa with mikro_agents := (runFallback sa.retry_config sa.stop_on_error
                  sa.mikro_agents ⟨input, 0, [], 0⟩).children } e),
            { sa with mikro_agents := (runFallback sa.retry_config sa.stop_on_error
                sa.mikro_agents ⟨input, 0, [], 0⟩).children },
            (runFallback sa.retry_config sa.stop_on_error sa.mikro_agents
                ⟨input, 0, [], 0⟩).dispatched, some e⟩) := by
  have hlogic : execProcessLogic sa ⟨input, 0, [], 0⟩ =
      execFlowsFallback sa ⟨input, 0, [], 0⟩ := by
    unfold execProcessLogic
    cases hwk : workflowKeyOf input with
    | none => simp only [hwk]
    | some w => simp only [hwk, hwf w hwk]
  have hflows := runFlows_noselect sa.retry_config sa.conditional_flows
    ⟨input, 0, [], 0⟩ hfl
  simp only [SubAgent.execute, hval, Bool.not_true]
  rw [hlogic]
  simp only [execFlowsFallback, hflows]
  cases hfb : (runFallback sa.retry_config sa.stop_on_error sa.mikro_agents
      ⟨input, 0, [], 0⟩).result with
  | error e =>
    simp only [hfb]
    rfl
  | ok u =>
    simp only [hfb]
    rfl

/-- C9 (amended): in a Process execute call with no applicable named
workflow and no selecting conditional flow, the fallback iterates only the
registered Pipeline (mikro) children — the registered Atomic (nano)
children are left untouched; the dispatched children form a prefix of the
mikro list in insertion order; when no exception is caught, every mikro
child was dispatched and the step counter equals their number; and with
`stop_on_error` set, a first child whose outcome is non-success aborts the
iteration at once with an exception. -/
theorem C9_fallback_children (sa : SubAgent) (input : Dict)
    (hval : sa.validate_input input = true)
    (hwf : ∀ w, workflowKeyOf input = some w → assocGet sa.workflows w = none)
    (hfl : ∀ f ∈ sa.conditional_flows, ∀ c, flowSelect f c = none) :
    (sa.execute input).agent.nano_agents = sa.nano_agents ∧
    (∃ k, k ≤ sa.mikro_agents.length ∧
      (sa.execute input).dispatched = (sa.mikro_agents.map (·.1)).take k) ∧
    ((sa.execute input).raised = none →
      (sa.execute input).dispatched = sa.mikro_agents.map (·.1) ∧
      (sa.execute input).result.map (fun o => dgetD o "steps_executed" .vnone) =
        .ok (.vint (sa.mikro_agents.length : Int))) ∧
    (∀ n m rest ctx dd,
      (subExecAgent sa.retry_config (.mikroC m) ctx).result = .ok dd →
      pyTruthy (dgetD dd "success" .vnone) = false →
      (runFallback sa.retry_config true ((n, m) :: rest) ctx).dispatched = [n] ∧
      (runFallback sa.retry_config true ((n, m) :: rest) ctx).result =
        .error ⟨"Exception", "Mikro-Agent fehlgeschlagen: " ++ n⟩) := by
  have hex := subExecute_noflow sa input hval hwf hfl
  have hpre := runFallback_prefix sa.retry_config sa.stop_on_error
    sa.mikro_agents ⟨input, 0, [], 0⟩
  refine ⟨?_, ?_, ?_, ?_⟩
  · rw [hex]
    split
    · rfl
    · split <;> rfl
  · obtain ⟨k, hk, hdisp⟩ := hpre
    refine ⟨k, hk, ?_⟩
    rw [hex]
    split
    · simpa using hdisp
    · split <;> simpa using hdisp
  · rw [hex]
    split
    · rename_i u heq
      intro _
      have hall := runFallback_ok_all sa.retry_config sa.stop_on_error
        sa.mikro_agents ⟨input, 0, [], 0⟩ (by rw [heq])
      have hstep : (runFallback sa.retry_config sa.stop_on_error sa.mikro_agents
          ⟨input, 0, [], 0⟩).ctx.current_step = sa.mikro_agents.length := by
        have h2 := hall.2
        simpa using h2
      refine ⟨by simpa using hall.1, ?_⟩
      simp only [subSuccessOut, hstep]
      rfl
    · intro hnone
      split at hnone <;> simp at hnone
  · intro n m rest ctx dd hok hfail
    exact runFallback_stop_abort sa.retry_config n m rest ctx dd hok hfail

/-- C9 (counterexample): a Process with one registered Atomic child and no
Pipeline children, no workflow and no flows: the fallback dispatches
nothing — the Atomic child is never iterated (its counter stays zero and
no step executes), although the call succeeds. -/
theorem C9_counterexample :
    (saNano.execute []).dispatched = [] ∧
    ((saNano.execute []).agent.nano_agents.map (fun p => p.2.execution_count)) = [0] ∧
    (saNano.execute []).result.map (fun d => dgetD d "steps_executed" .vnone) =
      .ok (.vint 0) ∧
    (saNano.execute []).result.map (fun d => dgetD d "success" .vnone) =
      .ok (.vbool true) :=
  ⟨rfl, rfl, rfl, rfl⟩

/-- C9 (witness): the fallback theorem at a concrete Process with two
succeeding Pipeline children. -/
theorem C9_witness :
    (saTwo.execute []).agent.nano_agents = saTwo.nano_agents ∧
    (saTwo.execute []).dispatched = saTwo.mikro_agents.map (·.1) := by
  have h := C9_fallback_children saTwo [] rfl (fun _ _ => rfl)
    (fun f hf => absurd hf (List.not_mem_nil f))
  exact ⟨h.1, (h.2.2.1 rfl).1⟩
